import Mathlib

/-!
Verification of the Nodpxoy relay servers.

The repository ships several variants of a small network relay:
  * `app.js` (first document): a WebSocket relay that parses a Trojan-style
    header from the first message, dials the target and splices the streams
    ("AppWs" below).
  * `app.js` (second document): a plain-TCP relay that parses a raw
    address-prefixed header (`ATYP | addr | port BE`), dials and splices
    ("AppTcp" below).
  * `unnamed/part_002` (first document): an older plain-TCP relay with the
    same raw header ("P2" below).
  * `app.js` (third document) and `unnamed/part_001`: HTTP proxies handling
    CONNECT tunnels and non-CONNECT requests ("HttpApp" / "HttpP1" below).
  * UDP forwarders (identical in all variants) ("Udp" below).

Byte buffers are `List Nat` (each entry one octet).  The event-handler
wiring of each relay is embedded as a step function on an explicit session
state; writes performed on the two sockets are recorded as output traces.
-/

namespace Nodpxoy

abbrev Bytes := List Nat

/-- Model of `buffer.readUInt8(i)`; all reads in the sources are guarded by
length checks, so the out-of-range default is never observable. -/
def readUInt8 (b : Bytes) (i : Nat) : Nat := b.getD i 0

/-- Model of `buffer.readUInt16BE(i)` (big-endian 16-bit read). -/
def readUInt16BE (b : Bytes) (i : Nat) : Nat :=
  256 * b.getD i 0 + b.getD (i + 1) 0

/-- Model of `Buffer.concat` on a list of chunks. -/
def bufConcat : List Bytes → Bytes
  | [] => []
  | b :: r => b ++ bufConcat r

/-- The U+FFFD replacement character emitted by Node's UTF-8 decoder on
malformed input. -/
def replChar : Char := Char.ofNat 0xFFFD

/-- Is `b` a UTF-8 continuation byte? -/
def isCont (b : Nat) : Bool := 0x80 ≤ b && b < 0xC0

/-- Worker for `utf8Decode`.  Every step consumes at least one input byte,
so a fuel equal to the input length suffices; the fuel only serves to make
the recursion structural. -/
def utf8DecodeAux : Nat → List Nat → List Char
  | 0, _ => []
  | _, [] => []
  | fuel + 1, b :: rest =>
    if b < 0x80 then Char.ofNat b :: utf8DecodeAux fuel rest
    else if 0xC2 ≤ b && b ≤ 0xDF then
      match rest with
      | b2 :: r2 =>
        if isCont b2 then Char.ofNat ((b - 0xC0) * 64 + (b2 - 0x80)) :: utf8DecodeAux fuel r2
        else replChar :: utf8DecodeAux fuel rest
      | [] => [replChar]
    else if 0xE0 ≤ b && b ≤ 0xEF then
      match rest with
      | b2 :: b3 :: r3 =>
        if isCont b2 && isCont b3 then
          let v := (b - 0xE0) * 4096 + (b2 - 0x80) * 64 + (b3 - 0x80)
          if v < 0x800 || (0xD800 ≤ v && v ≤ 0xDFFF) then replChar :: utf8DecodeAux fuel r3
          else Char.ofNat v :: utf8DecodeAux fuel r3
        else replChar :: utf8DecodeAux fuel rest
      | _ => replChar :: utf8DecodeAux fuel rest
    else if 0xF0 ≤ b && b ≤ 0xF4 then
      match rest with
      | b2 :: b3 :: b4 :: r4 =>
        if isCont b2 && isCont b3 && isCont b4 then
          let v := (b - 0xF0) * 262144 + (b2 - 0x80) * 4096 + (b3 - 0x80) * 64 + (b4 - 0x80)
          if v < 0x10000 || 0x10FFFF < v then replChar :: utf8DecodeAux fuel r4
          else Char.ofNat v :: utf8DecodeAux fuel r4
        else replChar :: utf8DecodeAux fuel rest
      | _ => replChar :: utf8DecodeAux fuel rest
    else replChar :: utf8DecodeAux fuel rest

/-- Model of `buffer.toString('utf8')`: UTF-8 decoding with U+FFFD
replacement on malformed sequences.  Every input the claims exercise is
plain ASCII, where the decoder is the identity on code points. -/
def utf8Decode (l : List Nat) : List Char := utf8DecodeAux l.length l

/-- Result of the raw-TCP target parser: the sources either keep waiting for
more bytes (`needMore`, the early `return`s and the caught `RangeError`),
reject the address-type byte (`invalidAtyp`), or succeed with the textual
host, the port and the leftover payload bytes after the header. -/
inductive ParseResult
  | needMore
  | invalidAtyp (t : Nat)
  | ok (host : String) (port : Nat) (leftover : Bytes)
deriving DecidableEq, Repr

/-- IPv6 group loop of `app.js` (TCP relay document, lines 270-272):
`for (let i = 0; i < 8; i++) push(readUInt16BE(consumedBytes + i * 2))`.
The first numeric argument counts the remaining iterations (`8 - i`),
which makes the recursion structural; `i` is the loop variable. -/
def appIpv6Loop (buf : Bytes) (base : Nat) : Nat → Nat → List Nat
  | 0, _ => []
  | n + 1, i => readUInt16BE buf (base + i * 2) :: appIpv6Loop buf base n (i + 1)

def appIpv6Groups (buf : Bytes) (base : Nat) : List Nat := appIpv6Loop buf base 8 0

/-- IPv6 group loop of `unnamed/part_002` (lines 62-64):
`for (let i = 0; i < 16; i += 2) push(readUInt16BE(consumedBytes + i))`.
The loop body runs 8 times (`i = 0, 2, …, 14`); the first numeric argument
counts the remaining iterations, `i` steps by 2 as in the source. -/
def p2Ipv6Loop (buf : Bytes) (base : Nat) : Nat → Nat → List Nat
  | 0, _ => []
  | n + 1, i => readUInt16BE buf (base + i) :: p2Ipv6Loop buf base n (i + 2)

def p2Ipv6Groups (buf : Bytes) (base : Nat) : List Nat := p2Ipv6Loop buf base 8 0

/-- The big-endian 16-bit reads at offsets `base + 2k`, `k ∈ [0,7]`, that
spec §4.1 mandates for IPv6 parsing. -/
def specIpv6Groups (buf : Bytes) (base : Nat) : List Nat :=
  (List.range 8).map (fun k => readUInt16BE buf (base + 2 * k))

/-- Rendering `(group).toString(16)` then `join(':')`, as both sources render IPv6. -/
def ipv6HostString (groups : List Nat) : String :=
  String.intercalate ":" (groups.map (fun g => String.mk (Nat.toDigits 16 g)))

/-- The raw-TCP target parser shared by the `app.js` TCP relay (lines
252-286) and `unnamed/part_002` (lines 44-79), parameterised by the IPv6
group loop, which is the only point where the two sources differ.
Protocol: `addressType (1 B) | [len (1 B) if domain] | address | port (2 B BE)`.
`consumedBytes` starts at 1 after the address-type byte. -/
def parseTargetCore (grp : Bytes → Nat → List Nat) (buf : Bytes) : ParseResult :=
  if buf.length < 1 then .needMore
  else
    let addressType := readUInt8 buf 0
    if addressType = 1 then
      if buf.length < 1 + 4 + 2 then .needMore
      else
        let host := toString (readUInt8 buf 1) ++ "." ++ toString (readUInt8 buf 2) ++ "."
          ++ toString (readUInt8 buf 3) ++ "." ++ toString (readUInt8 buf 4)
        .ok host (readUInt16BE buf 5) (buf.drop 7)
    else if addressType = 2 then
      if buf.length < 1 + 1 then .needMore
      else
        let addressLength := readUInt8 buf 1
        if buf.length < 2 + addressLength + 2 then .needMore
        else
          let host := String.mk (utf8Decode ((buf.drop 2).take addressLength))
          .ok host (readUInt16BE buf (2 + addressLength)) (buf.drop (2 + addressLength + 2))
    else if addressType = 3 then
      if buf.length < 1 + 16 + 2 then .needMore
      else
        .ok (ipv6HostString (grp buf 1)) (readUInt16BE buf 17) (buf.drop 19)
    else .invalidAtyp addressType

/-- The target parser of the `app.js` TCP relay document. -/
def parseTargetApp (buf : Bytes) : ParseResult := parseTargetCore appIpv6Groups buf

/-- The target parser of `unnamed/part_002`. -/
def parseTargetP2 (buf : Bytes) : ParseResult := parseTargetCore p2Ipv6Groups buf

/-- The concrete RawTCP scenario buffer of spec §8, test 3:
`02 | 07 | "a.b.com" | 0050` followed by `"PING"`. -/
def c5buf : Bytes := [2, 7, 97, 46, 98, 46, 99, 111, 109, 0, 80, 80, 73, 78, 71]

/-- The byte buffer carrying an ASCII string, as sent over a socket. -/
def asciiBytes (s : String) : Bytes := s.toList.map Char.toNat

/-! ### Worker-write traces

Each write the relay performs on the inbound (worker-facing) connection is
recorded in order, distinguishing the one-byte signaling writes
(`Buffer.from([0])` / `Buffer.from([1])`) from relayed upstream payload. -/

inductive WorkerWrite
  | signal (b : Nat)
  | payload (data : Bytes)
deriving DecidableEq, Repr

/-- Whether a success byte 0x00 occurs in the trace. -/
def hasSig0 : List WorkerWrite → Bool
  | [] => false
  | .signal b :: ws => b == 0 || hasSig0 ws
  | .payload _ :: ws => hasSig0 ws

/-- How many failure bytes 0x01 occur in the trace. -/
def countSig1 : List WorkerWrite → Nat
  | [] => 0
  | .signal b :: ws => (if b = 1 then 1 else 0) + countSig1 ws
  | .payload _ :: ws => countSig1 ws

/-- Scans a worker-write trace; `false` iff some failure byte 0x01 occurs
after a success byte 0x00 (`seen0` carries whether 0x00 was already seen). -/
def noSig1AfterSig0 : Bool → List WorkerWrite → Bool
  | _, [] => true
  | seen0, .signal b :: ws =>
    if b = 1 then !seen0 && noSig1AfterSig0 seen0 ws
    else noSig1AfterSig0 (seen0 || b == 0) ws
  | seen0, .payload _ :: ws => noSig1AfterSig0 seen0 ws

/-- Scans a worker-write trace; `false` iff some relayed upstream payload
occurs before the success byte 0x00. -/
def sig0BeforePayloads : Bool → List WorkerWrite → Bool
  | _, [] => true
  | seen0, .signal b :: ws => sig0BeforePayloads (seen0 || b == 0) ws
  | seen0, .payload _ :: ws => seen0 && sig0BeforePayloads seen0 ws

/-- The externally triggered events of one relay session: inbound data or
messages, the upstream `connect` callback, upstream data, and the error,
close and timeout events wired up by the sources. -/
inductive Ev
  | workerData (b : Bytes)
  | connectOk
  | upstreamData (b : Bytes)
  | upstreamError
  | upstreamTimeout
  | upstreamClose
  | workerError
  | workerClose
  | workerTimeout
  | connectTimer
deriving DecidableEq, Repr

/-! ### The TCP relay of `app.js` (second document, lines 189-376) -/

namespace AppTcp

def CONNECTION_TIMEOUT : Nat := 15000
def UPSTREAM_TIMEOUT : Nat := 30000

/-- Per-session state: the closure-captured variables of the connection
handler together with the recorded socket traces.  `leftover` is a ghost
field remembering the payload found after the parsed header, used only to
state properties; `dials`, `upstreamWrites` and `workerWrites` record the
outputs. -/
structure State where
  targetInfoReceived : Bool := false
  handshakeCompleted : Bool := false
  upstreamExists : Bool := false
  upstreamConnected : Bool := false
  piping : Bool := false
  workerDestroyed : Bool := false
  upstreamDestroyed : Bool := false
  initialDataBuffer : List Bytes := []
  targetHost : String := ""
  targetPort : Nat := 0
  leftover : Bytes := []
  dials : List (String × Nat) := []
  upstreamWrites : List Bytes := []
  workerWrites : List WorkerWrite := []
  upstreamTimeoutMs : Option Nat := none
deriving Repr

/-- Model of `cleanup(errorMessage)` (lines 211-223): writes the failure byte only
when there is an error message and the handshake has not completed, then
destroys both sockets. -/
def cleanup (err : Bool) (s : State) : State :=
  let s1 :=
    if s.workerDestroyed then s
    else
      let s0 :=
        if err && !s.handshakeCompleted then
          { s with workerWrites := s.workerWrites ++ [WorkerWrite.signal 1] }
        else s
      { s0 with workerDestroyed := true }
  if s1.upstreamExists && !s1.upstreamDestroyed then
    { s1 with upstreamDestroyed := true }
  else s1

/-- The `workerSocket.on('data')` handler (lines 229-352).  After the
handshake both this handler (line 232) and the pipe installed at line 321
forward each chunk to the upstream, hence the duplicated write. -/
def onData (s : State) (d : Bytes) : State :=
  if s.handshakeCompleted && s.upstreamExists && !s.upstreamDestroyed then
    { s with upstreamWrites := s.upstreamWrites ++ [d] ++ (if s.piping then [d] else []) }
  else
    let s := { s with initialDataBuffer := s.initialDataBuffer ++ [d] }
    if s.targetInfoReceived then s
    else
      match parseTargetApp (bufConcat s.initialDataBuffer) with
      | .needMore => s
      | .invalidAtyp _ => cleanup true s
      | .ok host port rest =>
        { s with
            targetInfoReceived := true
            targetHost := host
            targetPort := port
            leftover := rest
            initialDataBuffer := [rest]
            upstreamExists := true
            dials := s.dials ++ [(host, port)]
            upstreamTimeoutMs := some UPSTREAM_TIMEOUT }

/-- The `upstreamSocket.connect` callback (lines 295-327): success byte to
the worker, then the buffered head payload to the upstream, then the two
pipes are started. -/
def onConnect (s : State) : State :=
  let s := { s with
    upstreamConnected := true
    workerWrites := s.workerWrites ++ [WorkerWrite.signal 0]
    handshakeCompleted := true }
  let headPayload := bufConcat s.initialDataBuffer
  let s :=
    if headPayload.length > 0 then
      { s with upstreamWrites := s.upstreamWrites ++ [headPayload] }
    else s
  { s with initialDataBuffer := [], piping := true }

/-- Event dispatcher.  Guards model which handlers can still fire: a
destroyed socket emits no further data events, and a timer cleared by the
connect callback or by `cleanup` does not fire. -/
def step (s : State) : Ev → State
  | .workerData d => if s.workerDestroyed then s else onData s d
  | .connectOk =>
    if s.upstreamExists && !s.upstreamDestroyed && !s.upstreamConnected then onConnect s else s
  | .upstreamData d =>
    if s.piping && !s.workerDestroyed then
      { s with workerWrites := s.workerWrites ++ [WorkerWrite.payload d] }
    else s
  | .upstreamError => if s.upstreamExists && !s.upstreamDestroyed then cleanup true s else s
  | .upstreamTimeout => if s.upstreamExists && !s.upstreamDestroyed then cleanup true s else s
  | .upstreamClose =>
    if s.upstreamExists && !s.upstreamDestroyed then
      { s with workerDestroyed := true, upstreamDestroyed := true }
    else s
  | .workerError => if s.workerDestroyed then s else cleanup true s
  | .workerClose => if s.workerDestroyed then s else cleanup false s
  | .workerTimeout =>
    if !s.workerDestroyed && !s.targetInfoReceived then cleanup true s else s
  | .connectTimer =>
    if !s.workerDestroyed && !s.upstreamConnected then cleanup true s else s

def init : State := {}

/-- Run one session on a sequence of events. -/
def run (evs : List Ev) : State := evs.foldl step init

end AppTcp

/-! ### The TCP relay of `unnamed/part_002` (first document, lines 1-173) -/

namespace P2

def CONNECTION_TIMEOUT : Nat := 15000

/-- Per-session state for the `part_002` relay.  `queuedUpstreamWrites`
models chunks written to the upstream socket while it is still connecting
(`upstreamSocket.writable` is already true then); Node's Writable
machinery holds them as the pending in-flight write, so they reach the
wire before any write issued inside the `connect` callback.  `leftover`
is a ghost field as in `AppTcp.State`; `flushedQueued` is a ghost field
recording, once the socket connects, which chunks were flushed from the
connecting-phase queue ahead of the head payload. -/
structure State where
  targetInfoReceived : Bool := false
  upstreamExists : Bool := false
  upstreamConnected : Bool := false
  piping : Bool := false
  workerDestroyed : Bool := false
  upstreamDestroyed : Bool := false
  timerCleared : Bool := false
  initialDataBuffer : List Bytes := []
  queuedUpstreamWrites : List Bytes := []
  flushedQueued : List Bytes := []
  targetHost : String := ""
  targetPort : Nat := 0
  leftover : Bytes := []
  dials : List (String × Nat) := []
  upstreamWrites : List Bytes := []
  workerWrites : List WorkerWrite := []
  upstreamTimeoutMs : Option Nat := none
deriving Repr

/-- The `workerSocket.on('data')` handler (lines 23-142).  The first branch
fires as soon as the upstream socket exists and is not destroyed; once it
is connected, both this branch and the pipe installed at line 100 forward
the chunk. -/
def onData (s : State) (d : Bytes) : State :=
  if s.upstreamExists && !s.upstreamDestroyed then
    if s.upstreamConnected then
      { s with upstreamWrites := s.upstreamWrites ++ [d] ++ (if s.piping then [d] else []) }
    else
      { s with queuedUpstreamWrites := s.queuedUpstreamWrites ++ [d] }
  else
    let s := { s with initialDataBuffer := s.initialDataBuffer ++ [d] }
    if s.targetInfoReceived then s
    else
      match parseTargetP2 (bufConcat s.initialDataBuffer) with
      | .needMore => s
      | .invalidAtyp _ =>
        -- the thrown `Invalid addressType` lands in the catch block
        -- (lines 135-140): failure byte, destroy, clear the timer
        if s.workerDestroyed then { s with timerCleared := true }
        else
          { s with
              workerWrites := s.workerWrites ++ [WorkerWrite.signal 1]
              workerDestroyed := true
              timerCleared := true }
      | .ok host port rest =>
        { s with
            targetInfoReceived := true
            timerCleared := true
            targetHost := host
            targetPort := port
            leftover := rest
            initialDataBuffer := [rest]
            upstreamExists := true
            dials := s.dials ++ [(host, port)]
            upstreamTimeoutMs := some CONNECTION_TIMEOUT }

/-- The `upstreamSocket.connect` callback (lines 85-102): success byte to
the worker, buffered head payload to the upstream, then the pipes start.
A chunk written while the socket was still connecting occupies the
Writable stream's pending slot, so on the wire the queued connecting-phase
chunks are delivered first and the callback's `headPayload` write lands
behind them. -/
def onConnect (s : State) : State :=
  let s := { s with
    upstreamConnected := true
    workerWrites := s.workerWrites ++ [WorkerWrite.signal 0] }
  let s := { s with
    upstreamWrites := s.upstreamWrites ++ s.queuedUpstreamWrites
    flushedQueued := s.queuedUpstreamWrites
    queuedUpstreamWrites := [] }
  let headPayload := bufConcat s.initialDataBuffer
  let s :=
    if headPayload.length > 0 then
      { s with upstreamWrites := s.upstreamWrites ++ [headPayload] }
    else s
  { s with initialDataBuffer := [], piping := true }

/-- Event dispatcher for the `part_002` relay.  Note that the upstream
`error` and `timeout` handlers (lines 104-125) write the failure byte
`Buffer.from([1])` unconditionally whenever the worker socket is not yet
destroyed — also after relaying has begun. -/
def step (s : State) : Ev → State
  | .workerData d => if s.workerDestroyed then s else onData s d
  | .connectOk =>
    if s.upstreamExists && !s.upstreamDestroyed && !s.upstreamConnected then onConnect s else s
  | .upstreamData d =>
    if s.piping && !s.workerDestroyed then
      { s with workerWrites := s.workerWrites ++ [WorkerWrite.payload d] }
    else s
  | .upstreamError =>
    if s.upstreamExists && !s.upstreamDestroyed then
      if s.workerDestroyed then { s with upstreamDestroyed := true }
      else
        { s with
            workerWrites := s.workerWrites ++ [WorkerWrite.signal 1]
            workerDestroyed := true
            upstreamDestroyed := true }
    else s
  | .upstreamTimeout =>
    -- the 'timeout' handler signals failure and destroys the worker but
    -- leaves the upstream socket open
    if s.upstreamExists && !s.upstreamDestroyed then
      if s.workerDestroyed then s
      else
        { s with
            workerWrites := s.workerWrites ++ [WorkerWrite.signal 1]
            workerDestroyed := true }
    else s
  | .upstreamClose =>
    if s.upstreamExists && !s.upstreamDestroyed then
      { s with workerDestroyed := true, upstreamDestroyed := true }
    else s
  | .workerError =>
    if s.workerDestroyed then s
    else
      { s with
          workerDestroyed := true
          upstreamDestroyed := s.upstreamDestroyed || s.upstreamExists }
  | .workerClose =>
    if s.workerDestroyed then s
    else
      { s with
          workerDestroyed := true
          upstreamDestroyed := s.upstreamDestroyed || s.upstreamExists }
  | .workerTimeout =>
    if s.workerDestroyed then s
    else
      { s with
          workerDestroyed := true
          upstreamDestroyed := s.upstreamDestroyed || s.upstreamExists }
  | .connectTimer =>
    -- cleared as soon as the target info is parsed (line 74); while it is
    -- alive the target info is necessarily still missing, so the guard of
    -- lines 17-20 holds and the worker is destroyed
    if !s.timerCleared && !s.workerDestroyed then
      { s with workerDestroyed := true }
    else s

def init : State := {}

/-- Run one session on a sequence of events. -/
def run (evs : List Ev) : State := evs.foldl step init

end P2

/-! ### The WebSocket relay of `app.js` (first document, lines 1-188)

The header parser `parseTrojanHeader` of this document is truncated in the
sources, so the machine is parameterised over an arbitrary parser with the
result shape the handler consumes; every property proved below holds for
every parser. -/

namespace AppWs

def CONNECTION_TIMEOUT : Nat := 15000
def UPSTREAM_TIMEOUT : Nat := 30000

/-- The fields of the object returned by `parseTrojanHeader` that the
connection handler uses. -/
structure ParsedInfo where
  addressRemote : String
  portRemote : Nat
  rawClientData : Bytes
deriving DecidableEq, Repr

/-- Per-session state; `workerClosed` plays the role of
`workerSocket.readyState !== OPEN`.  `leftover` is a ghost field recording
`rawClientData`. -/
structure State where
  targetInfoReceived : Bool := false
  handshakeCompleted : Bool := false
  upstreamExists : Bool := false
  upstreamConnected : Bool := false
  piping : Bool := false
  workerClosed : Bool := false
  upstreamDestroyed : Bool := false
  targetHost : String := ""
  targetPort : Nat := 0
  leftover : Bytes := []
  dials : List (String × Nat) := []
  upstreamWrites : List Bytes := []
  workerWrites : List WorkerWrite := []
  upstreamTimeoutMs : Option Nat := none
deriving Repr

/-- Model of `cleanup(errorMessage)` (lines 26-42): sends the failure byte only when
there is an error message and the handshake has not completed, closes the
worker socket and destroys the upstream. -/
def cleanup (err : Bool) (s : State) : State :=
  let s1 :=
    if s.workerClosed then s
    else
      let s0 :=
        if err && !s.handshakeCompleted then
          { s with workerWrites := s.workerWrites ++ [WorkerWrite.signal 1] }
        else s
      { s0 with workerClosed := true }
  if s1.upstreamExists && !s1.upstreamDestroyed then
    { s1 with upstreamDestroyed := true }
  else s1

/-- The `workerSocket.on('message')` handler (lines 48-141).  After the
handshake both this handler and the second `message` listener installed at
line 101 forward the chunk; messages arriving after the parse but before
the upstream connects match neither branch and are dropped. -/
def onMessage (parse : Bytes → Except String ParsedInfo) (s : State) (d : Bytes) : State :=
  if s.handshakeCompleted && s.upstreamExists && !s.upstreamDestroyed then
    { s with upstreamWrites := s.upstreamWrites ++ [d] ++ (if s.piping then [d] else []) }
  else if !s.targetInfoReceived then
    match parse d with
    | .error _ => cleanup true s
    | .ok info =>
      { s with
          targetInfoReceived := true
          targetHost := info.addressRemote
          targetPort := info.portRemote
          leftover := info.rawClientData
          upstreamExists := true
          dials := s.dials ++ [(info.addressRemote, info.portRemote)]
          upstreamTimeoutMs := some UPSTREAM_TIMEOUT }
  else s

/-- The `net.connect` callback (lines 81-121): handshake completed, success
byte, then `rawClientData` (when non-empty) as the first upstream write,
then the relaying listeners are installed. -/
def onConnect (s : State) : State :=
  let s := { s with
    upstreamConnected := true
    handshakeCompleted := true
    workerWrites := s.workerWrites ++ [WorkerWrite.signal 0] }
  let s :=
    if s.leftover.length > 0 then
      { s with upstreamWrites := s.upstreamWrites ++ [s.leftover] }
    else s
  { s with piping := true }

/-- Event dispatcher for the WebSocket relay. -/
def step (parse : Bytes → Except String ParsedInfo) (s : State) : Ev → State
  | .workerData d => if s.workerClosed then s else onMessage parse s d
  | .connectOk =>
    if s.upstreamExists && !s.upstreamDestroyed && !s.upstreamConnected then onConnect s else s
  | .upstreamData d =>
    if s.piping && !s.workerClosed then
      { s with workerWrites := s.workerWrites ++ [WorkerWrite.payload d] }
    else s
  | .upstreamError => if s.upstreamExists && !s.upstreamDestroyed then cleanup true s else s
  | .upstreamTimeout => if s.upstreamExists && !s.upstreamDestroyed then cleanup true s else s
  | .upstreamClose =>
    if s.upstreamExists && !s.upstreamDestroyed then
      { s with workerClosed := true, upstreamDestroyed := true }
    else s
  | .workerError => if s.workerClosed then s else cleanup true s
  | .workerClose => if s.workerClosed then s else cleanup false s
  | .workerTimeout =>
    if !s.workerClosed && !s.targetInfoReceived then cleanup true s else s
  | .connectTimer =>
    if !s.workerClosed && !s.upstreamConnected then cleanup true s else s

def init : State := {}

/-- Run one session on a sequence of events. -/
def run (parse : Bytes → Except String ParsedInfo) (evs : List Ev) : State :=
  evs.foldl (step parse) init

end AppWs

/-! ### The HTTP proxies (`app.js` third document, `unnamed/part_001`) -/

namespace Http

/-- The action taken by one evaluation of the initial-data handler.  The
only actions that establish an upstream connection are `connectTunnel`,
`forwardDefault` and `forwardDynamic`; `jsError` models an uncaught
JavaScript `TypeError` (`undefined.split`). -/
inductive HAction
  | waitMore
  | closeHeaderTooLarge
  | respond400
  | jsError
  | connectTunnel (host : String) (port : Int)
  | forwardDefault (host : String) (port : Nat) (replay : Bytes)
  | forwardDynamic (host : String) (port : Nat) (replay : Bytes)
deriving DecidableEq, Repr

/-- Model of `requestStr.indexOf('\r\n')`. -/
def findCRLF : List Char → Option Nat
  | [] => none
  | c :: rest =>
    if c = '\r' ∧ rest.head? = some '\n' then some 0
    else (findCRLF rest).map (· + 1)

/-- JS `String.prototype.split` with a one-character separator: splits at
every occurrence, keeping empty pieces. -/
def splitOnChar (c : Char) : List Char → List (List Char)
  | [] => [[]]
  | x :: rest =>
    let r := splitOnChar c rest
    if x = c then [] :: r
    else
      match r with
      | h :: t => (x :: h) :: t
      | [] => [[x]]

def isDigit (c : Char) : Bool := '0' ≤ c && c ≤ '9'

def digitsToNat : List Char → Nat → Nat
  | [], acc => acc
  | c :: r, acc => digitsToNat r (acc * 10 + (c.toNat - 48))

/-- Model of `parseInt(s, 10)`: skip leading whitespace, optional sign,
then the maximal run of leading decimal digits; `none` models `NaN`. -/
def jsParseInt (s : List Char) : Option Int :=
  let t := s.dropWhile (fun c => c == ' ' || c == '\t' || c == '\n' || c == '\r')
  match t with
  | '-' :: r =>
    let ds := r.takeWhile isDigit
    if ds = [] then none else some (-(digitsToNat ds 0 : Int))
  | '+' :: r =>
    let ds := r.takeWhile isDigit
    if ds = [] then none else some ((digitsToNat ds 0 : Int))
  | _ =>
    let ds := t.takeWhile isDigit
    if ds = [] then none else some ((digitsToNat ds 0 : Int))

/-- Model of `String.prototype.startsWith` on char lists. -/
def strHasPre : List Char → List Char → Bool
  | [], _ => true
  | _ :: _, [] => false
  | p :: ps, c :: cs => p == c && strHasPre ps cs

/-- The CONNECT branch, identical in `app.js` (lines 425-447) and
`unnamed/part_001` (lines 45-63): split the target on ':', respond
`400 Bad Request` when the host part is empty (`!targetHost`) or the port
does not parse (`isNaN(targetPort)`), otherwise dial the tunnel. -/
def connectBranch (targetUrl : List Char) : HAction :=
  let parts := splitOnChar ':' targetUrl
  let targetHost := parts.getD 0 []
  -- `parseInt(parts[1], 10)`; a missing second part is `undefined`, and
  -- `parseInt(undefined, 10)` is NaN, modelled by `none`
  let targetPort : Option Int := (parts.get? 1).bind jsParseInt
  if targetHost = [] ∨ targetPort = none then .respond400
  else .connectTunnel (String.mk targetHost) (targetPort.getD 0)

structure JsURL where
  protocol : List Char
  hostname : List Char
  port : Option Nat
deriving DecidableEq, Repr

/-- Model of the WHATWG `new URL(...)` constructor restricted to the
absolute `http://` / `https://` targets on which `unnamed/part_001`
invokes it (any other shape fails the preceding `startsWith` test and
never reaches the constructor).  `none` models a thrown `TypeError`,
caught by the source and turned into a 400; in particular an empty host
throws for these special schemes.  The default-port elision the real URL
class performs is immaterial because the source immediately re-applies the
same default. -/
def jsNewURL (s : List Char) : Option JsURL :=
  let mk := fun (proto : List Char) (rest : List Char) =>
    let authority := rest.takeWhile (fun c => !(c == '/') && !(c == '?') && !(c == '#'))
    let hostname := authority.takeWhile (fun c => !(c == ':'))
    let portStr := (authority.dropWhile (fun c => !(c == ':'))).drop 1
    if hostname = [] then none
    else if portStr = [] then some ⟨proto, hostname, none⟩
    else if portStr.all isDigit then some ⟨proto, hostname, some (digitsToNat portStr 0)⟩
    else none
  if strHasPre "http://".toList s then mk "http:".toList (s.drop 7)
  else if strHasPre "https://".toList s then mk "https:".toList (s.drop 8)
  else none

/-- One evaluation of the initial-data handler of `unnamed/part_001`
(lines 25-148) on the accumulated buffer. -/
def stepP1 (buffer : Bytes) : HAction :=
  let requestStr := utf8Decode buffer
  match findCRLF requestStr with
  | none => if buffer.length > 8192 then .closeHeaderTooLarge else .waitMore
  | some firstLineEnd =>
    let requestLine := requestStr.take firstLineEnd
    let parts := splitOnChar ' ' requestLine
    let method := parts.getD 0 []
    match parts.get? 1 with
    | none =>
      if method = "CONNECT".toList then .jsError
      else .respond400       -- undefined.startsWith throws inside the try
    | some targetUrlString =>
      if method = "CONNECT".toList then connectBranch targetUrlString
      else
        if !(strHasPre "http://".toList targetUrlString
            || strHasPre "https://".toList targetUrlString) then
          .respond400        -- explicit throw, caught: 400 invalid target
        else
          match jsNewURL targetUrlString with
          | none => .respond400
          | some u =>
            if u.protocol ≠ "http:".toList then .respond400
            else
              .forwardDynamic (String.mk u.hostname)
                (u.port.getD (if u.protocol = "https:".toList then 443 else 80)) buffer

def DEFAULT_TARGET_TCP_IP : String := "1.0.0.5"
def DEFAULT_TARGET_TCP_PORT : Nat := 80

/-- One evaluation of the initial-data handler of the `app.js` HTTP-proxy
document (lines 402-506): CONNECT requests are tunnelled; every other
request is forwarded, buffered bytes first, to the fixed default target. -/
def stepApp (buffer : Bytes) : HAction :=
  let requestStr := utf8Decode buffer
  match findCRLF requestStr with
  | none => if buffer.length > 8192 then .closeHeaderTooLarge else .waitMore
  | some firstLineEnd =>
    let requestLine := requestStr.take firstLineEnd
    let parts := splitOnChar ' ' requestLine
    let method := parts.getD 0 []
    if method = "CONNECT".toList then
      match parts.get? 1 with
      | none => .jsError
      | some targetUrl => connectBranch targetUrl
    else .forwardDefault DEFAULT_TARGET_TCP_IP DEFAULT_TARGET_TCP_PORT buffer

end Http

/-! ### The UDP forwarder (identical in `app.js` and `unnamed/part_001`) -/

namespace Udp

def TARGET_UDP_IP : String := "1.0.0.5"
def TARGET_UDP_PORT : Nat := 443

structure Endpoint where
  address : String
  port : Nat
deriving DecidableEq, Repr

structure ClientEntry where
  address : String
  port : Nat
  lastSeen : Nat
deriving DecidableEq, Repr

/-- The `udpClientMap` JavaScript `Map`, as an insertion-ordered
association list. -/
abbrev ClientMap := List (String × ClientEntry)

/-- Model of `Map.prototype.set`: replace in place when the key exists, append
otherwise. -/
def mapSet (m : ClientMap) (k : String) (v : ClientEntry) : ClientMap :=
  match m with
  | [] => [(k, v)]
  | (k', v') :: rest => if k' = k then (k, v) :: rest else (k', v') :: mapSet rest k v

/-- One datagram sent by the forwarder. -/
structure Send where
  destAddress : String
  destPort : Nat
  payload : Bytes
deriving DecidableEq, Repr

def clientKey (r : Endpoint) : String := r.address ++ ":" ++ toString r.port

/-- The `udpProxyServer.on('message')` handler (`app.js` lines 540-551,
`unnamed/part_001` lines 179-190): record the source endpoint in the map,
then forward `msg` (bytes 0 to `msg.length`) to the fixed target. -/
def onMessage (udpClientMap : ClientMap) (msg : Bytes) (rinfo : Endpoint) (now : Nat) :
    ClientMap × Send :=
  (mapSet udpClientMap (clientKey rinfo) ⟨rinfo.address, rinfo.port, now⟩,
   ⟨TARGET_UDP_IP, TARGET_UDP_PORT, msg.take msg.length⟩)

/-- The source endpoints recorded in the routing map. -/
def recordedSources (m : ClientMap) : List Endpoint :=
  m.map (fun kv => ⟨kv.2.address, kv.2.port⟩)

end Udp

/-! ### Session invariants -/

namespace AppTcp

/-- Invariant of the `AppTcp` session machine, strong enough to carry the
ordering properties of the signaling byte, the first upstream write and
the upstream idle timeout through every event. -/
structure Inv (s : State) : Prop where
  head_left : ∀ w, s.upstreamWrites.head? = some w → ∃ r, w = s.leftover ++ r
  mid : s.targetInfoReceived = true →
    s.handshakeCompleted = true ∨
      (s.upstreamWrites = [] ∧ ∃ r, s.initialDataBuffer = s.leftover :: r)
  hs_nil : s.handshakeCompleted = true → s.upstreamWrites = [] → s.leftover = []
  pre : s.targetInfoReceived = false → s.upstreamWrites = []
  sig0_hs : hasSig0 s.workerWrites = s.handshakeCompleted
  no10 : noSig1AfterSig0 false s.workerWrites = true
  s0bp : sig0BeforePayloads false s.workerWrites = true
  cnt0 : s.workerDestroyed = false → countSig1 s.workerWrites = 0
  cnt1 : countSig1 s.workerWrites ≤ 1
  pip_hs : s.piping = true → s.handshakeCompleted = true
  hc_uc : s.handshakeCompleted = s.upstreamConnected
  uc_ue : s.upstreamConnected = true → s.upstreamExists = true
  ue_ti : s.upstreamExists = true → s.targetInfoReceived = true
  tmo : s.upstreamTimeoutMs = none ∨ s.upstreamTimeoutMs = some UPSTREAM_TIMEOUT

end AppTcp

namespace P2

/-- Invariant of the `P2` session machine.  Unlike `AppTcp`, no
`noSig1AfterSig0` clause holds (the upstream error and timeout handlers of
`part_002` emit the failure byte also after relaying has begun), and the
leftover is not the first upstream write in general: the `ord` clause
says the upstream write sequence is the flushed connecting-phase chunks,
then the leftover (when non-empty), then everything received after the
connect completed. -/
structure Inv (s : State) : Prop where
  ord : s.upstreamConnected = true → ∃ post,
    s.upstreamWrites = s.flushedQueued ++ s.leftover :: post ∨
      (s.leftover = [] ∧ s.upstreamWrites = s.flushedQueued ++ post)
  mid : s.upstreamConnected = false → s.upstreamWrites = []
  midbuf : s.targetInfoReceived = true → s.upstreamConnected = false →
    s.initialDataBuffer = [s.leftover]
  fq_pre : s.upstreamConnected = false → s.flushedQueued = []
  sig0_uc : hasSig0 s.workerWrites = s.upstreamConnected
  s0bp : sig0BeforePayloads false s.workerWrites = true
  cnt0 : s.workerDestroyed = false → countSig1 s.workerWrites = 0
  cnt1 : countSig1 s.workerWrites ≤ 1
  pip_uc : s.piping = true → s.upstreamConnected = true
  uc_ue : s.upstreamConnected = true → s.upstreamExists = true
  ue_ti : s.upstreamExists = true → s.targetInfoReceived = true
  ti_ue : s.targetInfoReceived = true → s.upstreamExists = true
  ud_wd : s.upstreamDestroyed = true → s.workerDestroyed = true
  tmo : s.upstreamTimeoutMs = none ∨ s.upstreamTimeoutMs = some CONNECTION_TIMEOUT

end P2

namespace AppWs

/-- Invariant of the `AppWs` session machine, for an arbitrary header
parser. -/
structure Inv (s : State) : Prop where
  head_left : ∀ w, s.upstreamWrites.head? = some w → ∃ r, w = s.leftover ++ r
  mid : s.handshakeCompleted = false → s.upstreamWrites = []
  hs_nil : s.handshakeCompleted = true → s.upstreamWrites = [] → s.leftover = []
  sig0_hs : hasSig0 s.workerWrites = s.handshakeCompleted
  no10 : noSig1AfterSig0 false s.workerWrites = true
  s0bp : sig0BeforePayloads false s.workerWrites = true
  cnt0 : s.workerClosed = false → countSig1 s.workerWrites = 0
  cnt1 : countSig1 s.workerWrites ≤ 1
  pip_hs : s.piping = true → s.handshakeCompleted = true
  hc_uc : s.handshakeCompleted = s.upstreamConnected
  uc_ue : s.upstreamConnected = true → s.upstreamExists = true
  ue_ti : s.upstreamExists = true → s.targetInfoReceived = true
  tmo : s.upstreamTimeoutMs = none ∨ s.upstreamTimeoutMs = some UPSTREAM_TIMEOUT

end AppWs

/-! ## Theorems -/

/-! ### Worker-write trace lemmas -/

theorem hasSig0_append (ws ys : List WorkerWrite) :
    hasSig0 (ws ++ ys) = (hasSig0 ws || hasSig0 ys) := by
  induction ws with
  | nil => simp [hasSig0]
  | cons w rest ih => cases w <;> simp [hasSig0, ih, Bool.or_assoc]

theorem countSig1_append (ws ys : List WorkerWrite) :
    countSig1 (ws ++ ys) = countSig1 ws + countSig1 ys := by
  induction ws with
  | nil => simp [countSig1]
  | cons w rest ih => cases w <;> simp [countSig1, ih, Nat.add_assoc]

theorem noSig1AfterSig0_append (b : Bool) (ws ys : List WorkerWrite) :
    noSig1AfterSig0 b (ws ++ ys) =
      (noSig1AfterSig0 b ws && noSig1AfterSig0 (b || hasSig0 ws) ys) := by
  induction ws generalizing b with
  | nil => simp [noSig1AfterSig0, hasSig0]
  | cons w rest ih =>
    cases w with
    | signal bb =>
      by_cases h : bb = 1 <;>
        simp [noSig1AfterSig0, hasSig0, h, ih, Bool.or_assoc, Bool.and_assoc]
    | payload d => simp [noSig1AfterSig0, hasSig0, ih]

theorem sig0BeforePayloads_append (b : Bool) (ws ys : List WorkerWrite) :
    sig0BeforePayloads b (ws ++ ys) =
      (sig0BeforePayloads b ws && sig0BeforePayloads (b || hasSig0 ws) ys) := by
  induction ws generalizing b with
  | nil => simp [sig0BeforePayloads, hasSig0]
  | cons w rest ih =>
    cases w with
    | signal bb => simp [sig0BeforePayloads, hasSig0, ih, Bool.or_assoc]
    | payload d => simp [sig0BeforePayloads, hasSig0, ih, Bool.and_assoc]

/-- Appending further chunks to the upstream-write trace preserves the
"first write extends the leftover" property, provided the leftover is
trivial whenever nothing has been written yet. -/
theorem head_left_append {lo : Bytes} {ws : List Bytes}
    (h : ∀ w, ws.head? = some w → ∃ r, w = lo ++ r)
    (hnil : ws = [] → lo = []) (ys : List Bytes) :
    ∀ w, (ws ++ ys).head? = some w → ∃ r, w = lo ++ r := by
  cases ws with
  | nil =>
    intro w _
    exact ⟨w, by simp [hnil rfl]⟩
  | cons a t =>
    intro w hw
    simp only [List.cons_append, List.head?_cons, Option.some.injEq] at hw
    exact h w (by simp [hw])

/-! ### Preservation of the `AppTcp` invariant -/

namespace AppTcp

theorem tcp_inv_init : Inv init := by
  refine ⟨?_, ?_, ?_, ?_, ?_, ?_, ?_, ?_, ?_, ?_, ?_, ?_, ?_, ?_⟩ <;>
    simp [init, hasSig0, countSig1, noSig1AfterSig0, sig0BeforePayloads]

theorem tcp_inv_cleanup {s : State} (h : Inv s) (err : Bool) : Inv (cleanup err s) := by
  obtain ⟨head_left, mid, hs_nil, pre, sig0_hs, no10, s0bp, cnt0, cnt1, pip_hs,
    hc_uc, uc_ue, ue_ti, tmo⟩ := h
  simp only [cleanup]
  split_ifs <;>
    refine ⟨?_, ?_, ?_, ?_, ?_, ?_, ?_, ?_, ?_, ?_, ?_, ?_, ?_, ?_⟩ <;>
    simp_all [hasSig0_append, countSig1_append, noSig1AfterSig0_append,
      sig0BeforePayloads_append, hasSig0, countSig1, noSig1AfterSig0,
      sig0BeforePayloads]

theorem tcp_inv_onData {s : State} (h : Inv s) (d : Bytes) : Inv (onData s d) := by
  obtain ⟨head_left, mid, hs_nil, pre, sig0_hs, no10, s0bp, cnt0, cnt1, pip_hs,
    hc_uc, uc_ue, ue_ti, tmo⟩ := h
  simp only [onData]
  by_cases hb : (s.handshakeCompleted && s.upstreamExists && !s.upstreamDestroyed) = true
  · rw [if_pos hb]
    simp only [Bool.and_eq_true, Bool.not_eq_true'] at hb
    obtain ⟨⟨hhs, hue⟩, hud⟩ := hb
    have hti : s.targetInfoReceived = true := ue_ti hue
    refine ⟨?_, ?_, ?_, ?_, sig0_hs, no10, s0bp, cnt0, cnt1, pip_hs, hc_uc, uc_ue, ue_ti, tmo⟩
    · have step1 := head_left_append head_left (hs_nil hhs) [d]
      have step2 := head_left_append step1 (by simp) (if s.piping then [d] else [])
      simpa [List.append_assoc] using step2
    · intro _; exact Or.inl hhs
    · intro _ hnil
      simp only [List.append_assoc] at hnil
      exact absurd hnil (by simp)
    · intro hf; exact absurd hf (by simp [hti])
  · rw [if_neg hb]
    have hs1 : Inv { s with initialDataBuffer := s.initialDataBuffer ++ [d] } := by
      refine ⟨head_left, ?_, hs_nil, pre, sig0_hs, no10, s0bp, cnt0, cnt1, pip_hs,
        hc_uc, uc_ue, ue_ti, tmo⟩
      intro h'
      rcases mid h' with hl | ⟨hw, r, hbuf⟩
      · exact Or.inl hl
      · refine Or.inr ⟨hw, r ++ [d], ?_⟩
        simp [hbuf]
    by_cases hti : s.targetInfoReceived = true
    · rw [if_pos hti]
      exact hs1
    · have hti' : s.targetInfoReceived = false := by simpa using hti
      rw [if_neg hti]
      cases hp : parseTargetApp (bufConcat (s.initialDataBuffer ++ [d])) with
      | needMore => exact hs1
      | invalidAtyp t => exact tcp_inv_cleanup hs1 true
      | ok host port rest =>
        have hws : s.upstreamWrites = [] := pre hti'
        have hhs : s.handshakeCompleted = false := by
          cases hhs' : s.handshakeCompleted
          · rfl
          · exact absurd (ue_ti (uc_ue (hc_uc.symm.trans hhs'))) (by simp [hti'])
        refine ⟨?_, ?_, ?_, ?_, ?_, no10, s0bp, cnt0, cnt1, ?_, ?_, ?_, ?_, ?_⟩
        · intro w hw
          dsimp only at hw
          rw [hws] at hw
          cases hw
        · intro _
          exact Or.inr ⟨hws, [], rfl⟩
        · intro hh _
          exact absurd hh (by simp [hhs])
        · intro hf; exact absurd hf (by simp)
        · simpa using sig0_hs
        · intro hp'
          exact absurd (pip_hs (by simpa using hp')) (by simp [hhs])
        · simpa using hc_uc
        · intro _; rfl
        · intro _; rfl
        · exact Or.inr rfl

theorem tcp_inv_onConnect {s : State} (h : Inv s) (hue : s.upstreamExists = true)
    (_hud : s.upstreamDestroyed = false) (huc : s.upstreamConnected = false) :
    Inv (onConnect s) := by
  obtain ⟨head_left, mid, hs_nil, pre, sig0_hs, no10, s0bp, cnt0, cnt1, pip_hs,
    hc_uc, uc_ue, ue_ti, tmo⟩ := h
  have hhs : s.handshakeCompleted = false := hc_uc.trans huc
  have hti : s.targetInfoReceived = true := ue_ti hue
  rcases mid hti with hl | ⟨hw, r, hbuf⟩
  · exact absurd hl (by simp [hhs])
  have hconc : bufConcat s.initialDataBuffer = s.leftover ++ bufConcat r := by
    rw [hbuf]; rfl
  simp only [onConnect]
  by_cases hlen : (bufConcat s.initialDataBuffer).length > 0
  · dsimp only
    rw [if_pos hlen]
    refine ⟨?_, fun _ => Or.inl rfl, ?_, ?_, ?_, ?_, ?_, ?_, ?_, fun _ => rfl,
      rfl, fun _ => hue, fun _ => hti, ?_⟩
    · intro w hw'
      dsimp only at hw'
      rw [hw] at hw'
      simp only [List.nil_append, List.head?_cons, Option.some.injEq] at hw'
      exact ⟨bufConcat r, by rw [← hw', hconc]⟩
    · intro _ hnil
      dsimp only at hnil
      exact absurd hnil (by simp)
    · intro hf; exact absurd hf (by simp [hti])
    · dsimp only
      rw [hasSig0_append]
      simp [hasSig0]
    · dsimp only
      rw [noSig1AfterSig0_append]
      simp [noSig1AfterSig0, no10]
    · dsimp only
      rw [sig0BeforePayloads_append]
      simp [sig0BeforePayloads, s0bp]
    · intro hf
      dsimp only at hf ⊢
      rw [countSig1_append]
      simp [countSig1, cnt0 hf]
    · dsimp only
      rw [countSig1_append]
      simpa [countSig1] using cnt1
    · exact tmo
  · dsimp only
    rw [if_neg hlen]
    have hleft : s.leftover = [] := by
      have h0 : bufConcat s.initialDataBuffer = [] := by
        cases hc : bufConcat s.initialDataBuffer
        · rfl
        · exact absurd (by simp [hc] : (bufConcat s.initialDataBuffer).length > 0) hlen
      rw [hconc] at h0
      exact List.append_eq_nil.mp h0 |>.1
    refine ⟨?_, fun _ => Or.inl rfl, fun _ _ => hleft, ?_, ?_, ?_, ?_, ?_, ?_,
      fun _ => rfl, rfl, fun _ => hue, fun _ => hti, ?_⟩
    · intro w hw'
      dsimp only at hw'
      rw [hw] at hw'
      cases hw'
    · intro hf; exact absurd hf (by simp [hti])
    · dsimp only
      rw [hasSig0_append]
      simp [hasSig0]
    · dsimp only
      rw [noSig1AfterSig0_append]
      simp [noSig1AfterSig0, no10]
    · dsimp only
      rw [sig0BeforePayloads_append]
      simp [sig0BeforePayloads, s0bp]
    · intro hf
      dsimp only at hf ⊢
      rw [countSig1_append]
      simp [countSig1, cnt0 hf]
    · dsimp only
      rw [countSig1_append]
      simpa [countSig1] using cnt1
    · exact tmo

theorem tcp_inv_step {s : State} (h : Inv s) (e : Ev) : Inv (step s e) := by
  cases e with
  | workerData d =>
    by_cases hw : s.workerDestroyed = true
    · simpa [step, hw] using h
    · simpa [step, hw] using tcp_inv_onData h d
  | connectOk =>
    by_cases hg : (s.upstreamExists && !s.upstreamDestroyed && !s.upstreamConnected) = true
    · have hg' := hg
      simp only [Bool.and_eq_true, Bool.not_eq_true'] at hg'
      obtain ⟨⟨hue, hud⟩, huc⟩ := hg'
      simpa [step, hg] using tcp_inv_onConnect h hue hud huc
    · simpa [step, hg] using h
  | upstreamData d =>
    by_cases hg : (s.piping && !s.workerDestroyed) = true
    · have hg' := hg
      simp only [Bool.and_eq_true, Bool.not_eq_true'] at hg'
      obtain ⟨hpip, hwd⟩ := hg'
      obtain ⟨head_left, mid, hs_nil, pre, sig0_hs, no10, s0bp, cnt0, cnt1, pip_hs,
        hc_uc, uc_ue, ue_ti, tmo⟩ := h
      have hsig : hasSig0 s.workerWrites = true := sig0_hs.trans (pip_hs hpip)
      simp only [step, hg, if_true]
      refine ⟨head_left, mid, hs_nil, pre, ?_, ?_, ?_, ?_, ?_, pip_hs, hc_uc, uc_ue, ue_ti, tmo⟩
      · dsimp only
        rw [hasSig0_append]
        simp [hasSig0, sig0_hs]
      · dsimp only
        rw [noSig1AfterSig0_append]
        simp [noSig1AfterSig0, no10]
      · dsimp only
        rw [sig0BeforePayloads_append]
        simp [sig0BeforePayloads, s0bp, hsig]
      · intro hf
        dsimp only at hf ⊢
        rw [countSig1_append]
        simp [countSig1, cnt0 hf]
      · dsimp only
        rw [countSig1_append]
        simpa [countSig1] using cnt1
    · simpa [step, hg] using h
  | upstreamError =>
    by_cases hg : (s.upstreamExists && !s.upstreamDestroyed) = true
    · simpa [step, hg] using tcp_inv_cleanup h true
    · simpa [step, hg] using h
  | upstreamTimeout =>
    by_cases hg : (s.upstreamExists && !s.upstreamDestroyed) = true
    · simpa [step, hg] using tcp_inv_cleanup h true
    · simpa [step, hg] using h
  | upstreamClose =>
    by_cases hg : (s.upstreamExists && !s.upstreamDestroyed) = true
    · obtain ⟨head_left, mid, hs_nil, pre, sig0_hs, no10, s0bp, cnt0, cnt1, pip_hs,
        hc_uc, uc_ue, ue_ti, tmo⟩ := h
      simp only [step, hg, if_true]
      exact ⟨head_left, mid, hs_nil, pre, sig0_hs, no10, s0bp,
        fun hf => absurd hf (by simp), cnt1, pip_hs, hc_uc, uc_ue, ue_ti, tmo⟩
    · simpa [step, hg] using h
  | workerError =>
    by_cases hw : s.workerDestroyed = true
    · simpa [step, hw] using h
    · simpa [step, hw] using tcp_inv_cleanup h true
  | workerClose =>
    by_cases hw : s.workerDestroyed = true
    · simpa [step, hw] using h
    · simpa [step, hw] using tcp_inv_cleanup h false
  | workerTimeout =>
    by_cases hg : (!s.workerDestroyed && !s.targetInfoReceived) = true
    · simpa [step, hg] using tcp_inv_cleanup h true
    · simpa [step, hg] using h
  | connectTimer =>
    by_cases hg : (!s.workerDestroyed && !s.upstreamConnected) = true
    · simpa [step, hg] using tcp_inv_cleanup h true
    · simpa [step, hg] using h

theorem tcp_inv_run (evs : List Ev) : Inv (run evs) := by
  have main : ∀ (l : List Ev) (s : State), Inv s → Inv (List.foldl step s l) := by
    intro l
    induction l with
    | nil => intro s hs; exact hs
    | cons e rest ih => intro s hs; exact ih _ (tcp_inv_step hs e)
  exact main evs init tcp_inv_init

end AppTcp

/-! ### Preservation of the `P2` invariant -/

namespace P2

theorem p2_inv_init : Inv init := by
  refine ⟨?_, ?_, ?_, ?_, ?_, ?_, ?_, ?_, ?_, ?_, ?_, ?_, ?_, ?_⟩ <;>
    simp [init, hasSig0, countSig1, sig0BeforePayloads]

theorem p2_inv_onData {s : State} (h : Inv s) (d : Bytes)
    (hwd : s.workerDestroyed = false) : Inv (onData s d) := by
  obtain ⟨ord, mid, midbuf, fq_pre, sig0_uc, s0bp, cnt0, cnt1, pip_uc,
    uc_ue, ue_ti, ti_ue, ud_wd, tmo⟩ := h
  have hud : s.upstreamDestroyed = false := by
    cases h' : s.upstreamDestroyed
    · rfl
    · exact absurd (ud_wd h') (by simp [hwd])
  simp only [onData]
  by_cases hb : (s.upstreamExists && !s.upstreamDestroyed) = true
  · rw [if_pos hb]
    simp only [Bool.and_eq_true, Bool.not_eq_true'] at hb
    obtain ⟨hue, -⟩ := hb
    by_cases huc : s.upstreamConnected = true
    · rw [if_pos huc]
      refine ⟨?_, ?_, ?_, ?_, sig0_uc, s0bp, cnt0, cnt1, pip_uc, uc_ue, ue_ti,
        ti_ue, ud_wd, tmo⟩
      · intro h'
        obtain ⟨post, hpost | ⟨hl, hpost⟩⟩ := ord huc
        · exact ⟨post ++ ([d] ++ (if s.piping then [d] else [])),
            Or.inl (by simp [hpost])⟩
        · exact ⟨post ++ ([d] ++ (if s.piping then [d] else [])),
            Or.inr ⟨hl, by simp [hpost]⟩⟩
      · intro h'
        dsimp only at h'
        exact absurd huc (by simp [h'])
      · intro _ h'
        dsimp only at h'
        exact absurd huc (by simp [h'])
      · intro h'
        dsimp only at h'
        exact absurd huc (by simp [h'])
    · rw [if_neg huc]
      exact ⟨ord, mid, midbuf, fq_pre, sig0_uc, s0bp, cnt0, cnt1, pip_uc,
        uc_ue, ue_ti, ti_ue, ud_wd, tmo⟩
  · rw [if_neg hb]
    have hue : s.upstreamExists = false := by
      cases h' : s.upstreamExists
      · rfl
      · exact absurd (by simp [h', hud] : (s.upstreamExists && !s.upstreamDestroyed) = true) hb
    have hti : s.targetInfoReceived = false := by
      cases h' : s.targetInfoReceived
      · rfl
      · exact absurd (ti_ue h') (by simp [hue])
    have huc : s.upstreamConnected = false := by
      cases h' : s.upstreamConnected
      · rfl
      · exact absurd (uc_ue h') (by simp [hue])
    rw [if_neg (by simp [hti])]
    cases hp : parseTargetP2 (bufConcat (s.initialDataBuffer ++ [d])) with
    | needMore =>
      exact ⟨ord, mid, fun h' _ => absurd h' (by simp [hti]), fq_pre, sig0_uc,
        s0bp, cnt0, cnt1, pip_uc, uc_ue, ue_ti, fun h' => absurd h' (by simp [hti]),
        ud_wd, tmo⟩
    | invalidAtyp t =>
      rw [if_neg (by simp [hwd])]
      refine ⟨ord, mid, fun h' _ => absurd h' (by simp [hti]), fq_pre, ?_, ?_,
        ?_, ?_, pip_uc, uc_ue, ue_ti, fun h' => absurd h' (by simp [hti]),
        fun _ => rfl, ?_⟩
      · dsimp only
        rw [hasSig0_append]
        simp [hasSig0, sig0_uc]
      · dsimp only
        rw [sig0BeforePayloads_append]
        simp [sig0BeforePayloads, s0bp]
      · intro hf; exact absurd hf (by simp)
      · dsimp only
        rw [countSig1_append]
        simp [countSig1, cnt0 hwd]
      · exact tmo
    | ok host port rest =>
      have hws : s.upstreamWrites = [] := mid huc
      refine ⟨?_, ?_, ?_, ?_, sig0_uc, s0bp, cnt0, cnt1, ?_, ?_, ?_, ?_, ud_wd, ?_⟩
      · intro h'
        dsimp only at h'
        exact absurd h' (by simp [huc])
      · intro _; exact hws
      · intro _ _; rfl
      · intro _; exact fq_pre huc
      · intro hp'; exact pip_uc (by simpa using hp')
      · intro _; rfl
      · intro _; rfl
      · intro _; rfl
      · exact Or.inr rfl

theorem p2_inv_onConnect {s : State} (h : Inv s) (hue : s.upstreamExists = true)
    (_hud : s.upstreamDestroyed = false) (huc : s.upstreamConnected = false) :
    Inv (onConnect s) := by
  obtain ⟨ord, mid, midbuf, fq_pre, sig0_uc, s0bp, cnt0, cnt1, pip_uc,
    uc_ue, ue_ti, ti_ue, ud_wd, tmo⟩ := h
  have hti : s.targetInfoReceived = true := ue_ti hue
  have hws : s.upstreamWrites = [] := mid (by simp [huc])
  have hbuf : s.initialDataBuffer = [s.leftover] := midbuf hti (by simp [huc])
  have hconc : bufConcat s.initialDataBuffer = s.leftover := by
    simp [hbuf, bufConcat]
  simp only [onConnect]
  by_cases hlen : (bufConcat s.initialDataBuffer).length > 0
  · dsimp only
    rw [if_pos hlen]
    refine ⟨?_, ?_, ?_, ?_, ?_, ?_, ?_, ?_, fun _ => rfl, fun _ => hue,
      fun _ => hti, fun _ => hue, ud_wd, tmo⟩
    · intro _
      refine ⟨[], Or.inl ?_⟩
      dsimp only
      rw [hws, hconc]
      simp
    · intro h'; exact absurd h' (by simp)
    · intro _ h'; exact absurd h' (by simp)
    · intro h'; exact absurd h' (by simp)
    · dsimp only
      rw [hasSig0_append]
      simp [hasSig0]
    · dsimp only
      rw [sig0BeforePayloads_append]
      simp [sig0BeforePayloads, s0bp]
    · intro hf
      dsimp only at hf ⊢
      rw [countSig1_append]
      simp [countSig1, cnt0 hf]
    · dsimp only
      rw [countSig1_append]
      simpa [countSig1] using cnt1
  · dsimp only
    rw [if_neg hlen]
    have hleft : s.leftover = [] := by
      cases hc : bufConcat s.initialDataBuffer
      · rw [← hconc, hc]
      · exact absurd (by simp [hc] : (bufConcat s.initialDataBuffer).length > 0) hlen
    refine ⟨?_, ?_, ?_, ?_, ?_, ?_, ?_, ?_, fun _ => rfl, fun _ => hue,
      fun _ => hti, fun _ => hue, ud_wd, tmo⟩
    · intro _
      refine ⟨[], Or.inr ⟨hleft, ?_⟩⟩
      dsimp only
      rw [hws]
      simp
    · intro h'; exact absurd h' (by simp)
    · intro _ h'; exact absurd h' (by simp)
    · intro h'; exact absurd h' (by simp)
    · dsimp only
      rw [hasSig0_append]
      simp [hasSig0]
    · dsimp only
      rw [sig0BeforePayloads_append]
      simp [sig0BeforePayloads, s0bp]
    · intro hf
      dsimp only at hf ⊢
      rw [countSig1_append]
      simp [countSig1, cnt0 hf]
    · dsimp only
      rw [countSig1_append]
      simpa [countSig1] using cnt1

theorem p2_inv_step {s : State} (h : Inv s) (e : Ev) : Inv (step s e) := by
  cases e with
  | workerData d =>
    by_cases hw : s.workerDestroyed = true
    · simpa [step, hw] using h
    · have hw' : s.workerDestroyed = false := by simpa using hw
      simpa [step, hw'] using p2_inv_onData h d hw'
  | connectOk =>
    by_cases hg : (s.upstreamExists && !s.upstreamDestroyed && !s.upstreamConnected) = true
    · have hg' := hg
      simp only [Bool.and_eq_true, Bool.not_eq_true'] at hg'
      obtain ⟨⟨hue, hud⟩, huc⟩ := hg'
      simpa [step, hg] using p2_inv_onConnect h hue hud huc
    · simpa [step, hg] using h
  | upstreamData d =>
    by_cases hg : (s.piping && !s.workerDestroyed) = true
    · have hg' := hg
      simp only [Bool.and_eq_true, Bool.not_eq_true'] at hg'
      obtain ⟨hpip, hwd⟩ := hg'
      obtain ⟨ord, mid, midbuf, fq_pre, sig0_uc, s0bp, cnt0, cnt1, pip_uc,
        uc_ue, ue_ti, ti_ue, ud_wd, tmo⟩ := h
      have hsig : hasSig0 s.workerWrites = true := sig0_uc.trans (pip_uc hpip)
      simp only [step, hg, if_true]
      refine ⟨ord, mid, midbuf, fq_pre, ?_, ?_, ?_, ?_, pip_uc, uc_ue,
        ue_ti, ti_ue, ud_wd, tmo⟩
      · dsimp only
        rw [hasSig0_append]
        simp [hasSig0, sig0_uc]
      · dsimp only
        rw [sig0BeforePayloads_append]
        simp [sig0BeforePayloads, s0bp, hsig]
      · intro hf
        dsimp only at hf ⊢
        rw [countSig1_append]
        simp [countSig1, cnt0 hf]
      · dsimp only
        rw [countSig1_append]
        simpa [countSig1] using cnt1
    · simpa [step, hg] using h
  | upstreamError =>
    obtain ⟨ord, mid, midbuf, fq_pre, sig0_uc, s0bp, cnt0, cnt1, pip_uc,
      uc_ue, ue_ti, ti_ue, ud_wd, tmo⟩ := h
    by_cases hg : (s.upstreamExists && !s.upstreamDestroyed) = true
    · simp only [step, hg, if_true]
      by_cases hwd : s.workerDestroyed = true
      · rw [if_pos hwd]
        exact ⟨ord, mid, midbuf, fq_pre, sig0_uc, s0bp,
          fun hf => absurd hf (by simp [hwd]), cnt1, pip_uc, uc_ue, ue_ti, ti_ue,
          fun _ => hwd, tmo⟩
      · have hwd' : s.workerDestroyed = false := by simpa using hwd
        rw [if_neg hwd]
        refine ⟨ord, mid, midbuf, fq_pre, ?_, ?_, ?_, ?_, pip_uc, uc_ue,
          ue_ti, ti_ue, fun _ => rfl, tmo⟩
        · dsimp only
          rw [hasSig0_append]
          simp [hasSig0, sig0_uc]
        · dsimp only
          rw [sig0BeforePayloads_append]
          simp [sig0BeforePayloads, s0bp]
        · intro hf; exact absurd hf (by simp)
        · dsimp only
          rw [countSig1_append]
          simp [countSig1, cnt0 hwd']
    · simpa [step, hg] using
        (⟨ord, mid, midbuf, fq_pre, sig0_uc, s0bp, cnt0, cnt1, pip_uc,
          uc_ue, ue_ti, ti_ue, ud_wd, tmo⟩ : Inv s)
  | upstreamTimeout =>
    obtain ⟨ord, mid, midbuf, fq_pre, sig0_uc, s0bp, cnt0, cnt1, pip_uc,
      uc_ue, ue_ti, ti_ue, ud_wd, tmo⟩ := h
    by_cases hg : (s.upstreamExists && !s.upstreamDestroyed) = true
    · have hud : s.upstreamDestroyed = false := by
        simp only [Bool.and_eq_true, Bool.not_eq_true'] at hg
        exact hg.2
      simp only [step, hg, if_true]
      by_cases hwd : s.workerDestroyed = true
      · rw [if_pos hwd]
        exact ⟨ord, mid, midbuf, fq_pre, sig0_uc, s0bp, cnt0, cnt1, pip_uc,
          uc_ue, ue_ti, ti_ue, ud_wd, tmo⟩
      · have hwd' : s.workerDestroyed = false := by simpa using hwd
        rw [if_neg hwd]
        refine ⟨ord, mid, midbuf, fq_pre, ?_, ?_, ?_, ?_, pip_uc, uc_ue,
          ue_ti, ti_ue, fun h' => absurd h' (by simp [hud]), tmo⟩
        · dsimp only
          rw [hasSig0_append]
          simp [hasSig0, sig0_uc]
        · dsimp only
          rw [sig0BeforePayloads_append]
          simp [sig0BeforePayloads, s0bp]
        · intro hf; exact absurd hf (by simp)
        · dsimp only
          rw [countSig1_append]
          simp [countSig1, cnt0 hwd']
    · simpa [step, hg] using
        (⟨ord, mid, midbuf, fq_pre, sig0_uc, s0bp, cnt0, cnt1, pip_uc,
          uc_ue, ue_ti, ti_ue, ud_wd, tmo⟩ : Inv s)
  | upstreamClose =>
    obtain ⟨ord, mid, midbuf, fq_pre, sig0_uc, s0bp, cnt0, cnt1, pip_uc,
      uc_ue, ue_ti, ti_ue, ud_wd, tmo⟩ := h
    by_cases hg : (s.upstreamExists && !s.upstreamDestroyed) = true
    · simp only [step, hg, if_true]
      exact ⟨ord, mid, midbuf, fq_pre, sig0_uc, s0bp,
        fun hf => absurd hf (by simp), cnt1, pip_uc, uc_ue, ue_ti, ti_ue,
        fun _ => rfl, tmo⟩
    · simpa [step, hg] using
        (⟨ord, mid, midbuf, fq_pre, sig0_uc, s0bp, cnt0, cnt1, pip_uc,
          uc_ue, ue_ti, ti_ue, ud_wd, tmo⟩ : Inv s)
  | workerError =>
    obtain ⟨ord, mid, midbuf, fq_pre, sig0_uc, s0bp, cnt0, cnt1, pip_uc,
      uc_ue, ue_ti, ti_ue, ud_wd, tmo⟩ := h
    by_cases hw : s.workerDestroyed = true
    · simpa [step, hw] using
        (⟨ord, mid, midbuf, fq_pre, sig0_uc, s0bp, cnt0, cnt1, pip_uc,
          uc_ue, ue_ti, ti_ue, ud_wd, tmo⟩ : Inv s)
    · simp only [step, hw, Bool.false_eq_true, if_false]
      exact ⟨ord, mid, midbuf, fq_pre, sig0_uc, s0bp,
        fun hf => absurd hf (by simp), cnt1, pip_uc, uc_ue, ue_ti, ti_ue,
        fun _ => rfl, tmo⟩
  | workerClose =>
    obtain ⟨ord, mid, midbuf, fq_pre, sig0_uc, s0bp, cnt0, cnt1, pip_uc,
      uc_ue, ue_ti, ti_ue, ud_wd, tmo⟩ := h
    by_cases hw : s.workerDestroyed = true
    · simpa [step, hw] using
        (⟨ord, mid, midbuf, fq_pre, sig0_uc, s0bp, cnt0, cnt1, pip_uc,
          uc_ue, ue_ti, ti_ue, ud_wd, tmo⟩ : Inv s)
    · simp only [step, hw, Bool.false_eq_true, if_false]
      exact ⟨ord, mid, midbuf, fq_pre, sig0_uc, s0bp,
        fun hf => absurd hf (by simp), cnt1, pip_uc, uc_ue, ue_ti, ti_ue,
        fun _ => rfl, tmo⟩
  | workerTimeout =>
    obtain ⟨ord, mid, midbuf, fq_pre, sig0_uc, s0bp, cnt0, cnt1, pip_uc,
      uc_ue, ue_ti, ti_ue, ud_wd, tmo⟩ := h
    by_cases hw : s.workerDestroyed = true
    · simpa [step, hw] using
        (⟨ord, mid, midbuf, fq_pre, sig0_uc, s0bp, cnt0, cnt1, pip_uc,
          uc_ue, ue_ti, ti_ue, ud_wd, tmo⟩ : Inv s)
    · simp only [step, hw, Bool.false_eq_true, if_false]
      exact ⟨ord, mid, midbuf, fq_pre, sig0_uc, s0bp,
        fun hf => absurd hf (by simp), cnt1, pip_uc, uc_ue, ue_ti, ti_ue,
        fun _ => rfl, tmo⟩
  | connectTimer =>
    obtain ⟨ord, mid, midbuf, fq_pre, sig0_uc, s0bp, cnt0, cnt1, pip_uc,
      uc_ue, ue_ti, ti_ue, ud_wd, tmo⟩ := h
    by_cases hg : (!s.timerCleared && !s.workerDestroyed) = true
    · simp only [step, hg, if_true]
      refine ⟨ord, mid, midbuf, fq_pre, sig0_uc, s0bp,
        fun hf => absurd hf (by simp), cnt1, pip_uc, uc_ue, ue_ti, ti_ue, ?_, tmo⟩
      intro h'
      exact rfl
    · simpa [step, hg] using
        (⟨ord, mid, midbuf, fq_pre, sig0_uc, s0bp, cnt0, cnt1, pip_uc,
          uc_ue, ue_ti, ti_ue, ud_wd, tmo⟩ : Inv s)

theorem p2_inv_run (evs : List Ev) : Inv (run evs) := by
  have main : ∀ (l : List Ev) (s : State), Inv s → Inv (List.foldl step s l) := by
    intro l
    induction l with
    | nil => intro s hs; exact hs
    | cons e rest ih => intro s hs; exact ih _ (p2_inv_step hs e)
  exact main evs init p2_inv_init

end P2

/-! ### Preservation of the `AppWs` invariant -/

namespace AppWs

theorem ws_inv_init : Inv init := by
  refine ⟨?_, ?_, ?_, ?_, ?_, ?_, ?_, ?_, ?_, ?_, ?_, ?_, ?_⟩ <;>
    simp [init, hasSig0, countSig1, noSig1AfterSig0, sig0BeforePayloads]

theorem ws_inv_cleanup {s : State} (h : Inv s) (err : Bool) : Inv (cleanup err s) := by
  obtain ⟨head_left, mid, hs_nil, sig0_hs, no10, s0bp, cnt0, cnt1, pip_hs,
    hc_uc, uc_ue, ue_ti, tmo⟩ := h
  simp only [cleanup]
  split_ifs <;>
    refine ⟨?_, ?_, ?_, ?_, ?_, ?_, ?_, ?_, ?_, ?_, ?_, ?_, ?_⟩ <;>
    simp_all [hasSig0_append, countSig1_append, noSig1AfterSig0_append,
      sig0BeforePayloads_append, hasSig0, countSig1, noSig1AfterSig0,
      sig0BeforePayloads]

theorem ws_inv_onMessage {s : State} (h : Inv s)
    (parse : Bytes → Except String ParsedInfo) (d : Bytes) :
    Inv (onMessage parse s d) := by
  obtain ⟨head_left, mid, hs_nil, sig0_hs, no10, s0bp, cnt0, cnt1, pip_hs,
    hc_uc, uc_ue, ue_ti, tmo⟩ := h
  simp only [onMessage]
  by_cases hb : (s.handshakeCompleted && s.upstreamExists && !s.upstreamDestroyed) = true
  · rw [if_pos hb]
    simp only [Bool.and_eq_true, Bool.not_eq_true'] at hb
    obtain ⟨⟨hhs, hue⟩, hud⟩ := hb
    refine ⟨?_, ?_, ?_, sig0_hs, no10, s0bp, cnt0, cnt1, pip_hs, hc_uc, uc_ue,
      ue_ti, tmo⟩
    · have step1 := head_left_append head_left (hs_nil hhs) [d]
      have step2 := head_left_append step1 (by simp) (if s.piping then [d] else [])
      simpa [List.append_assoc] using step2
    · intro h'
      dsimp only at h'
      exact absurd hhs (by simp [h'])
    · intro _ hnil
      simp only [List.append_assoc] at hnil
      exact absurd hnil (by simp)
  · rw [if_neg hb]
    by_cases hti : s.targetInfoReceived = true
    · rw [if_neg (by simp [hti])]
      exact ⟨head_left, mid, hs_nil, sig0_hs, no10, s0bp, cnt0, cnt1, pip_hs,
        hc_uc, uc_ue, ue_ti, tmo⟩
    · have hti' : s.targetInfoReceived = false := by simpa using hti
      rw [if_pos (by simp [hti'])]
      cases hp : parse d with
      | error e => exact ws_inv_cleanup ⟨head_left, mid, hs_nil, sig0_hs, no10, s0bp,
          cnt0, cnt1, pip_hs, hc_uc, uc_ue, ue_ti, tmo⟩ true
      | ok info =>
        have hhs : s.handshakeCompleted = false := by
          cases hhs' : s.handshakeCompleted
          · rfl
          · exact absurd (ue_ti (uc_ue (hc_uc.symm.trans hhs'))) (by simp [hti'])
        have hws : s.upstreamWrites = [] := mid hhs
        refine ⟨?_, ?_, ?_, ?_, no10, s0bp, cnt0, cnt1, ?_, ?_, ?_, ?_, ?_⟩
        · intro w hw
          dsimp only at hw
          rw [hws] at hw
          cases hw
        · intro _; exact hws
        · intro hh _
          exact absurd hh (by simp [hhs])
        · simpa using sig0_hs
        · intro hp'
          exact absurd (pip_hs (by simpa using hp')) (by simp [hhs])
        · simpa using hc_uc
        · intro _; rfl
        · intro _; rfl
        · exact Or.inr rfl

theorem ws_inv_onConnect {s : State} (h : Inv s) (hue : s.upstreamExists = true)
    (_hud : s.upstreamDestroyed = false) (huc : s.upstreamConnected = false) :
    Inv (onConnect s) := by
  obtain ⟨head_left, mid, hs_nil, sig0_hs, no10, s0bp, cnt0, cnt1, pip_hs,
    hc_uc, uc_ue, ue_ti, tmo⟩ := h
  have hhs : s.handshakeCompleted = false := hc_uc.trans huc
  have hti : s.targetInfoReceived = true := ue_ti hue
  have hws : s.upstreamWrites = [] := mid hhs
  simp only [onConnect]
  by_cases hlen : s.leftover.length > 0
  · dsimp only
    rw [if_pos hlen]
    refine ⟨?_, ?_, ?_, ?_, ?_, ?_, ?_, ?_, fun _ => rfl, rfl, fun _ => hue,
      fun _ => hti, tmo⟩
    · intro w hw'
      dsimp only at hw'
      rw [hws] at hw'
      simp only [List.nil_append, List.head?_cons, Option.some.injEq] at hw'
      exact ⟨[], by rw [← hw', List.append_nil]⟩
    · intro h'; exact absurd h' (by simp)
    · intro _ hnil
      dsimp only at hnil
      rw [hws] at hnil
      exact absurd hnil (by simp)
    · dsimp only
      rw [hasSig0_append]
      simp [hasSig0]
    · dsimp only
      rw [noSig1AfterSig0_append]
      simp [noSig1AfterSig0, no10]
    · dsimp only
      rw [sig0BeforePayloads_append]
      simp [sig0BeforePayloads, s0bp]
    · intro hf
      dsimp only at hf ⊢
      rw [countSig1_append]
      simp [countSig1, cnt0 hf]
    · dsimp only
      rw [countSig1_append]
      simpa [countSig1] using cnt1
  · dsimp only
    rw [if_neg hlen]
    have hleft : s.leftover = [] := by
      cases hc : s.leftover
      · rfl
      · exact absurd (by simp [hc] : s.leftover.length > 0) hlen
    refine ⟨?_, ?_, fun _ _ => hleft, ?_, ?_, ?_, ?_, ?_, fun _ => rfl, rfl,
      fun _ => hue, fun _ => hti, tmo⟩
    · intro w hw'
      dsimp only at hw'
      rw [hws] at hw'
      cases hw'
    · intro h'; exact absurd h' (by simp)
    · dsimp only
      rw [hasSig0_append]
      simp [hasSig0]
    · dsimp only
      rw [noSig1AfterSig0_append]
      simp [noSig1AfterSig0, no10]
    · dsimp only
      rw [sig0BeforePayloads_append]
      simp [sig0BeforePayloads, s0bp]
    · intro hf
      dsimp only at hf ⊢
      rw [countSig1_append]
      simp [countSig1, cnt0 hf]
    · dsimp only
      rw [countSig1_append]
      simpa [countSig1] using cnt1

theorem ws_inv_step {s : State} (h : Inv s)
    (parse : Bytes → Except String ParsedInfo) (e : Ev) :
    Inv (step parse s e) := by
  cases e with
  | workerData d =>
    by_cases hw : s.workerClosed = true
    · simpa [step, hw] using h
    · simpa [step, hw] using ws_inv_onMessage h parse d
  | connectOk =>
    by_cases hg : (s.upstreamExists && !s.upstreamDestroyed && !s.upstreamConnected) = true
    · have hg' := hg
      simp only [Bool.and_eq_true, Bool.not_eq_true'] at hg'
      obtain ⟨⟨hue, hud⟩, huc⟩ := hg'
      simpa [step, hg] using ws_inv_onConnect h hue hud huc
    · simpa [step, hg] using h
  | upstreamData d =>
    by_cases hg : (s.piping && !s.workerClosed) = true
    · have hg' := hg
      simp only [Bool.and_eq_true, Bool.not_eq_true'] at hg'
      obtain ⟨hpip, hwd⟩ := hg'
      obtain ⟨head_left, mid, hs_nil, sig0_hs, no10, s0bp, cnt0, cnt1, pip_hs,
        hc_uc, uc_ue, ue_ti, tmo⟩ := h
      have hsig : hasSig0 s.workerWrites = true := sig0_hs.trans (pip_hs hpip)
      simp only [step, hg, if_true]
      refine ⟨head_left, mid, hs_nil, ?_, ?_, ?_, ?_, ?_, pip_hs, hc_uc, uc_ue,
        ue_ti, tmo⟩
      · dsimp only
        rw [hasSig0_append]
        simp [hasSig0, sig0_hs]
      · dsimp only
        rw [noSig1AfterSig0_append]
        simp [noSig1AfterSig0, no10]
      · dsimp only
        rw [sig0BeforePayloads_append]
        simp [sig0BeforePayloads, s0bp, hsig]
      · intro hf
        dsimp only at hf ⊢
        rw [countSig1_append]
        simp [countSig1, cnt0 hf]
      · dsimp only
        rw [countSig1_append]
        simpa [countSig1] using cnt1
    · simpa [step, hg] using h
  | upstreamError =>
    by_cases hg : (s.upstreamExists && !s.upstreamDestroyed) = true
    · simpa [step, hg] using ws_inv_cleanup h true
    · simpa [step, hg] using h
  | upstreamTimeout =>
    by_cases hg : (s.upstreamExists && !s.upstreamDestroyed) = true
    · simpa [step, hg] using ws_inv_cleanup h true
    · simpa [step, hg] using h
  | upstreamClose =>
    by_cases hg : (s.upstreamExists && !s.upstreamDestroyed) = true
    · obtain ⟨head_left, mid, hs_nil, sig0_hs, no10, s0bp, cnt0, cnt1, pip_hs,
        hc_uc, uc_ue, ue_ti, tmo⟩ := h
      simp only [step, hg, if_true]
      exact ⟨head_left, mid, hs_nil, sig0_hs, no10, s0bp,
        fun hf => absurd hf (by simp), cnt1, pip_hs, hc_uc, uc_ue, ue_ti, tmo⟩
    · simpa [step, hg] using h
  | workerError =>
    by_cases hw : s.workerClosed = true
    · simpa [step, hw] using h
    · simpa [step, hw] using ws_inv_cleanup h true
  | workerClose =>
    by_cases hw : s.workerClosed = true
    · simpa [step, hw] using h
    · simpa [step, hw] using ws_inv_cleanup h false
  | workerTimeout =>
    by_cases hg : (!s.workerClosed && !s.targetInfoReceived) = true
    · simpa [step, hg] using ws_inv_cleanup h true
    · simpa [step, hg] using h
  | connectTimer =>
    by_cases hg : (!s.workerClosed && !s.upstreamConnected) = true
    · simpa [step, hg] using ws_inv_cleanup h true
    · simpa [step, hg] using h

theorem ws_inv_run (parse : Bytes → Except String ParsedInfo) (evs : List Ev) :
    Inv (run parse evs) := by
  have main : ∀ (l : List Ev) (s : State), Inv s → Inv (List.foldl (step parse) s l) := by
    intro l
    induction l with
    | nil => intro s hs; exact hs
    | cons e rest ih => intro s hs; exact ih _ (ws_inv_step hs parse e)
  exact main evs init ws_inv_init

end AppWs

/-! ### Helper lemmas for the HTTP proxies and the address codec -/

theorem strHasPre_iff (p s : List Char) :
    Http.strHasPre p s = true ↔ ∃ r, s = p ++ r := by
  induction p generalizing s with
  | nil => simp [Http.strHasPre]
  | cons c cs ih =>
    cases s with
    | nil => simp [Http.strHasPre]
    | cons x xs =>
      simp only [Http.strHasPre, Bool.and_eq_true, beq_iff_eq, ih, List.cons_append,
        List.cons.injEq]
      constructor
      · rintro ⟨hcx, r, hr⟩
        exact ⟨r, hcx.symm, hr⟩
      · rintro ⟨r, hxc, hr⟩
        exact ⟨hxc.symm, r, hr⟩

/-- A URL parsed from a target that starts with `https://` carries the
protocol `https:`. -/
theorem jsNewURL_https_protocol {t : List Char} {u : Http.JsURL}
    (h : Http.strHasPre "https://".toList t = true)
    (hu : Http.jsNewURL t = some u) : u.protocol = "https:".toList := by
  obtain ⟨r, rfl⟩ := (strHasPre_iff _ _).mp h
  have hhttp : Http.strHasPre "http://".toList ("https://".toList ++ r) = false := rfl
  have hhttps : Http.strHasPre "https://".toList ("https://".toList ++ r) = true :=
    (strHasPre_iff _ _).mpr ⟨r, rfl⟩
  simp only [Http.jsNewURL, hhttp, hhttps, Bool.false_eq_true, if_false, if_true] at hu
  split_ifs at hu <;> (try cases hu) <;> rfl

/-- The `app.js` IPv6 loop performs exactly the §4.1 reads. -/
theorem appIpv6Groups_eq_spec (buf : Bytes) (base : Nat) :
    appIpv6Groups buf base = specIpv6Groups buf base := by
  simp [appIpv6Groups, appIpv6Loop, specIpv6Groups, List.range_succ]

/-- The `part_002` IPv6 loop performs exactly the §4.1 reads. -/
theorem p2Ipv6Groups_eq_spec (buf : Bytes) (base : Nat) :
    p2Ipv6Groups buf base = specIpv6Groups buf base := by
  simp [p2Ipv6Groups, p2Ipv6Loop, specIpv6Groups, List.range_succ]

/-- The two raw-TCP target parsers agree on every input. -/
theorem parseTarget_app_eq_p2 (buf : Bytes) :
    parseTargetApp buf = parseTargetP2 buf := by
  simp only [parseTargetApp, parseTargetP2, parseTargetCore]
  rw [show appIpv6Groups buf 1 = p2Ipv6Groups buf 1 from
    (appIpv6Groups_eq_spec buf 1).trans (p2Ipv6Groups_eq_spec buf 1).symm]

theorem utf8DecodeAux_replicate_a (n : Nat) :
    utf8DecodeAux n (List.replicate n 97) = List.replicate n 'a' := by
  induction n with
  | zero => rfl
  | succ n ih => simp [List.replicate, utf8DecodeAux, ih]

theorem utf8Decode_replicate_a (n : Nat) :
    utf8Decode (List.replicate n 97) = List.replicate n 'a' := by
  simpa [utf8Decode] using utf8DecodeAux_replicate_a n

theorem findCRLF_replicate_a (n : Nat) :
    Http.findCRLF (List.replicate n 'a') = none := by
  induction n with
  | zero => rfl
  | succ n ih => simp [List.replicate, Http.findCRLF, ih]

/-! ### The claims -/

/-- C1 counterexample: in the `part_002` relay a chunk received between the
header parse and the upstream connect success is written to the
still-connecting socket, and Node's Writable machinery delivers that
pending write before the connect callback's head-payload write — so the
first upstream write of this session is the later chunk `[9, 9]`, not the
leftover `"PING"`. -/
theorem c1_p2_queued_chunk_precedes_leftover_counterexample :
    (P2.run [Ev.workerData c5buf, Ev.workerData [9, 9],
      Ev.connectOk]).upstreamWrites = [[9, 9], [80, 73, 78, 71]] ∧
    (P2.run [Ev.workerData c5buf, Ev.workerData [9, 9],
      Ev.connectOk]).leftover = [80, 73, 78, 71] ∧
    (P2.run [Ev.workerData c5buf, Ev.workerData [9, 9],
      Ev.connectOk]).upstreamWrites.head? = some [9, 9] ∧
    ¬ ∃ r, [9, 9] =
      (P2.run [Ev.workerData c5buf, Ev.workerData [9, 9],
        Ev.connectOk]).leftover ++ r := by
  refine ⟨by decide, by decide, by decide, ?_⟩
  rintro ⟨r, hr⟩
  rw [(by decide : (P2.run [Ev.workerData c5buf, Ev.workerData [9, 9],
    Ev.connectOk]).leftover = [80, 73, 78, 71])] at hr
  simp at hr

/-- C1 amended: in the `app.js` WebSocket and TCP relay variants the
leftover is delivered as the first upstream write, before any subsequently
received inbound bytes.  In the `part_002` variant the upstream write
sequence is: the chunks received while the upstream socket was still
connecting (in order), then the leftover (when non-empty), then the bytes
received after the connect completed — so the leftover still precedes all
post-connect inbound bytes, and it is the first upstream write exactly in
the sessions where no chunk arrived during the dial. -/
theorem c1_leftover_ordering (evs : List Ev)
    (parse : Bytes → Except String AppWs.ParsedInfo) :
    (∀ w, (AppTcp.run evs).upstreamWrites.head? = some w →
      ∃ r, w = (AppTcp.run evs).leftover ++ r) ∧
    (∀ w, (AppWs.run parse evs).upstreamWrites.head? = some w →
      ∃ r, w = (AppWs.run parse evs).leftover ++ r) ∧
    ((P2.run evs).upstreamWrites = [] ∨ ∃ post,
      (P2.run evs).upstreamWrites =
          (P2.run evs).flushedQueued ++ (P2.run evs).leftover :: post ∨
        ((P2.run evs).leftover = [] ∧
          (P2.run evs).upstreamWrites = (P2.run evs).flushedQueued ++ post)) ∧
    ((P2.run evs).flushedQueued = [] →
      ∀ w, (P2.run evs).upstreamWrites.head? = some w →
        ∃ r, w = (P2.run evs).leftover ++ r) := by
  refine ⟨(AppTcp.tcp_inv_run evs).head_left,
    (AppWs.ws_inv_run parse evs).head_left, ?_, ?_⟩
  · cases huc : (P2.run evs).upstreamConnected
    · exact Or.inl ((P2.p2_inv_run evs).mid huc)
    · exact Or.inr ((P2.p2_inv_run evs).ord huc)
  · intro hfq w hw
    cases huc : (P2.run evs).upstreamConnected
    · rw [(P2.p2_inv_run evs).mid huc] at hw
      cases hw
    · obtain ⟨post, hpost | ⟨hl, _⟩⟩ := (P2.p2_inv_run evs).ord huc
      · rw [hpost, hfq, List.nil_append, List.head?_cons] at hw
        obtain rfl : (P2.run evs).leftover = w := by simpa using hw
        exact ⟨[], by simp⟩
      · exact ⟨w, by simp [hl]⟩

/-- Witness for C1 at the concrete RawTCP scenario of spec §8: with no
chunk arriving during the dial, both the `app.js` TCP variant and the
`part_002` variant deliver the leftover `"PING"` as the first upstream
write. -/
theorem c1_leftover_ordering_witness :
    (∃ r, [80, 73, 78, 71] =
      (AppTcp.run [Ev.workerData c5buf, Ev.connectOk]).leftover ++ r) ∧
    (∃ r, [80, 73, 78, 71] =
      (P2.run [Ev.workerData c5buf, Ev.connectOk]).leftover ++ r) :=
  ⟨(c1_leftover_ordering [Ev.workerData c5buf, Ev.connectOk]
      (fun _ => Except.error "")).1 [80, 73, 78, 71] (by decide),
   (c1_leftover_ordering [Ev.workerData c5buf, Ev.connectOk]
      (fun _ => Except.error "")).2.2.2 (by decide) [80, 73, 78, 71] (by decide)⟩

/-- C2 counterexample: in the `part_002` relay a session that has completed
its handshake and is relaying (success byte 0x00 sent, upstream payload
already relayed back) still gets the failure byte 0x01 written to the
inbound connection when the upstream errors — 0x01 after Relaying. -/
theorem c2_sig1_after_relaying_counterexample :
    (P2.run [Ev.workerData c5buf, Ev.connectOk, Ev.upstreamData [42],
      Ev.upstreamError]).workerWrites =
      [WorkerWrite.signal 0, WorkerWrite.payload [42], WorkerWrite.signal 1] ∧
    noSig1AfterSig0 false
      (P2.run [Ev.workerData c5buf, Ev.connectOk, Ev.upstreamData [42],
        Ev.upstreamError]).workerWrites = false := by
  constructor <;> decide

/-- C2 amended: in every relay variant the failure byte 0x01 is written at
most once per session; in the `app.js` WebSocket and TCP variants it is
moreover only written before the success byte 0x00 (never after relaying
has begun), but the `part_002` variant lacks that guarantee (its upstream
error/timeout handlers write 0x01 unconditionally). -/
theorem c2_sig1_at_most_once (evs : List Ev)
    (parse : Bytes → Except String AppWs.ParsedInfo) :
    countSig1 (AppTcp.run evs).workerWrites ≤ 1 ∧
    noSig1AfterSig0 false (AppTcp.run evs).workerWrites = true ∧
    countSig1 (AppWs.run parse evs).workerWrites ≤ 1 ∧
    noSig1AfterSig0 false (AppWs.run parse evs).workerWrites = true ∧
    countSig1 (P2.run evs).workerWrites ≤ 1 :=
  ⟨(AppTcp.tcp_inv_run evs).cnt1, (AppTcp.tcp_inv_run evs).no10,
   (AppWs.ws_inv_run parse evs).cnt1, (AppWs.ws_inv_run parse evs).no10,
   (P2.p2_inv_run evs).cnt1⟩

/-- C3: in every relay variant, every session that reaches Relaying writes
the success byte 0x00 to the inbound connection before any upstream
payload bytes are forwarded back: no payload write ever precedes the
first 0x00 in the worker-write trace. -/
theorem c3_sig0_before_upstream_payload (evs : List Ev)
    (parse : Bytes → Except String AppWs.ParsedInfo) :
    sig0BeforePayloads false (AppTcp.run evs).workerWrites = true ∧
    sig0BeforePayloads false (P2.run evs).workerWrites = true ∧
    sig0BeforePayloads false (AppWs.run parse evs).workerWrites = true :=
  ⟨(AppTcp.tcp_inv_run evs).s0bp, (P2.p2_inv_run evs).s0bp,
   (AppWs.ws_inv_run parse evs).s0bp⟩

/-- C4 counterexample: the claimed stride bug does not exist.  On a
concrete IPv6 buffer (`atyp 3`, address 2001:db8::1, port 443) both
variants perform the big-endian 16-bit reads at offsets `base + 2k`
mandated by §4.1 and parse identically. -/
theorem c4_no_stride_bug_counterexample :
    p2Ipv6Groups [3, 32, 1, 13, 184, 0, 0, 0, 0, 0, 0, 0, 0, 0, 0, 0, 1, 1, 187] 1 =
      specIpv6Groups [3, 32, 1, 13, 184, 0, 0, 0, 0, 0, 0, 0, 0, 0, 0, 0, 1, 1, 187] 1 ∧
    appIpv6Groups [3, 32, 1, 13, 184, 0, 0, 0, 0, 0, 0, 0, 0, 0, 0, 0, 1, 1, 187] 1 =
      specIpv6Groups [3, 32, 1, 13, 184, 0, 0, 0, 0, 0, 0, 0, 0, 0, 0, 0, 1, 1, 187] 1 ∧
    parseTargetApp [3, 32, 1, 13, 184, 0, 0, 0, 0, 0, 0, 0, 0, 0, 0, 0, 1, 1, 187] =
      ParseResult.ok "2001:db8:0:0:0:0:0:1" 443 [] ∧
    parseTargetP2 [3, 32, 1, 13, 184, 0, 0, 0, 0, 0, 0, 0, 0, 0, 0, 0, 1, 1, 187] =
      ParseResult.ok "2001:db8:0:0:0:0:0:1" 443 [] := by
  refine ⟨?_, ?_, ?_, ?_⟩ <;> decide

/-- C4 amended: neither source variant has an IPv6 stride bug.  The
`app.js` loop multiplies the index by 2 in the offset and the `part_002`
loop strides the index itself by 2; on every buffer and base both perform
exactly the big-endian 16-bit reads at offsets `base + 2k`, k ∈ [0,7], and
the two parsers agree on all inputs. -/
theorem c4_ipv6_reads_correct_in_both_variants (buf : Bytes) (base : Nat) :
    appIpv6Groups buf base = specIpv6Groups buf base ∧
    p2Ipv6Groups buf base = specIpv6Groups buf base ∧
    parseTargetApp buf = parseTargetP2 buf :=
  ⟨appIpv6Groups_eq_spec buf base, p2Ipv6Groups_eq_spec buf base,
   parseTarget_app_eq_p2 buf⟩

/-- C5: for the RawTCP input `02 | 07 | "a.b.com" | 0050` + `"PING"`, both
raw-TCP relay variants parse target host `"a.b.com"` and port 80, dial
exactly `a.b.com:80`, and forward the leftover `"PING"` as the first (and
only) upstream write. -/
theorem c5_rawtcp_domain_scenario :
    parseTargetApp c5buf = ParseResult.ok "a.b.com" 80 [80, 73, 78, 71] ∧
    parseTargetP2 c5buf = ParseResult.ok "a.b.com" 80 [80, 73, 78, 71] ∧
    (AppTcp.run [Ev.workerData c5buf, Ev.connectOk]).dials = [("a.b.com", 80)] ∧
    (AppTcp.run [Ev.workerData c5buf, Ev.connectOk]).upstreamWrites =
      [[80, 73, 78, 71]] ∧
    (P2.run [Ev.workerData c5buf, Ev.connectOk]).dials = [("a.b.com", 80)] ∧
    (P2.run [Ev.workerData c5buf, Ev.connectOk]).upstreamWrites =
      [[80, 73, 78, 71]] := by
  refine ⟨?_, ?_, ?_, ?_, ?_, ?_⟩ <;> decide

/-- C6 counterexample: the `app.js` HTTP-proxy variant does not reject the
https absolute-URI request `GET https://x/ HTTP/1.1`; it dials the fixed
default target 1.0.0.5:80 and replays the buffered bytes there. -/
theorem c6_app_proxy_forwards_https_counterexample :
    Http.stepApp (asciiBytes "GET https://x/ HTTP/1.1\r\n\r\n") =
      Http.HAction.forwardDefault "1.0.0.5" 80
        (asciiBytes "GET https://x/ HTTP/1.1\r\n\r\n") := by
  decide

/-- C6 amended: only the `unnamed/part_001` HTTP-proxy variant rejects
https absolute-URI targets of non-CONNECT requests with `400 Bad Request`
and no upstream dial; the `app.js` HTTP-proxy variant instead forwards
every non-CONNECT request to the fixed default target (see the
counterexample). -/
theorem c6_p1_rejects_https_absolute_uri (buf : Bytes) (i : Nat) (t : List Char)
    (hline : Http.findCRLF (utf8Decode buf) = some i)
    (hmethod : ¬(Http.splitOnChar ' ' ((utf8Decode buf).take i)).getD 0 [] =
      "CONNECT".toList)
    (htarget : (Http.splitOnChar ' ' ((utf8Decode buf).take i)).get? 1 = some t)
    (hhttps : Http.strHasPre "https://".toList t = true) :
    Http.stepP1 buf = Http.HAction.respond400 := by
  have hpre : Http.strHasPre "http://".toList t = false := by
    obtain ⟨r, rfl⟩ := (strHasPre_iff _ _).mp hhttps
    rfl
  simp only [Http.stepP1, hline, htarget]
  rw [if_neg hmethod]
  have hcond : (!(Http.strHasPre "http://".toList t
      || Http.strHasPre "https://".toList t)) = false := by
    rw [hpre, hhttps]
    decide
  rw [hcond, if_neg (by decide : ¬(false = true))]
  cases hu : Http.jsNewURL t with
  | none => rfl
  | some u =>
    dsimp only
    rw [if_pos (by rw [jsNewURL_https_protocol hhttps hu]; decide)]

/-- Witness for C6 at the spec §8 scenario `GET https://x/ HTTP/1.1`. -/
theorem c6_p1_rejects_https_absolute_uri_witness :
    Http.stepP1 (asciiBytes "GET https://x/ HTTP/1.1\r\n\r\n") =
      Http.HAction.respond400 :=
  c6_p1_rejects_https_absolute_uri (asciiBytes "GET https://x/ HTTP/1.1\r\n\r\n")
    23 "https://x/".toList (by decide) (by decide) (by decide) (by decide)

/-- C7: in both HTTP-proxy variants, an accumulated initial buffer without
any `\r\n` is treated as a too-large header and the connection is closed
exactly when it exceeds 8192 bytes; at 8192 bytes or less the proxy keeps
waiting for more data. -/
theorem c7_header_too_large_boundary (buf : Bytes)
    (hnone : Http.findCRLF (utf8Decode buf) = none) :
    (buf.length > 8192 →
      Http.stepP1 buf = Http.HAction.closeHeaderTooLarge ∧
      Http.stepApp buf = Http.HAction.closeHeaderTooLarge) ∧
    (buf.length ≤ 8192 →
      Http.stepP1 buf = Http.HAction.waitMore ∧
      Http.stepApp buf = Http.HAction.waitMore) := by
  constructor <;> intro hlen
  · constructor <;>
      (simp only [Http.stepP1, Http.stepApp, hnone]; rw [if_pos hlen])
  · constructor <;>
      (simp only [Http.stepP1, Http.stepApp, hnone]; rw [if_neg (by omega)])

/-- Witness for C7: 8193 bytes of `a` (no CRLF) close both proxies as a
too-large header, while exactly 8192 such bytes are still awaited. -/
theorem c7_header_too_large_boundary_witness :
    (Http.stepP1 (List.replicate 8193 97) = Http.HAction.closeHeaderTooLarge ∧
      Http.stepApp (List.replicate 8193 97) = Http.HAction.closeHeaderTooLarge) ∧
    (Http.stepP1 (List.replicate 8192 97) = Http.HAction.waitMore ∧
      Http.stepApp (List.replicate 8192 97) = Http.HAction.waitMore) :=
  ⟨(c7_header_too_large_boundary (List.replicate 8193 97)
      (by rw [utf8Decode_replicate_a]; exact findCRLF_replicate_a 8193)).1
      (by simp only [List.length_replicate]; omega),
   (c7_header_too_large_boundary (List.replicate 8192 97)
      (by rw [utf8Decode_replicate_a]; exact findCRLF_replicate_a 8192)).2
      (by simp only [List.length_replicate]; omega)⟩

/-- C8 counterexample: the `part_002` relay sets the upstream socket
timeout to `CONNECTION_TIMEOUT` = 15000 ms, not to a 30-second upstream
idle timeout. -/
theorem c8_p2_upstream_timeout_counterexample :
    (P2.run [Ev.workerData c5buf]).upstreamTimeoutMs = some P2.CONNECTION_TIMEOUT ∧
    P2.CONNECTION_TIMEOUT = 15000 ∧
    ¬(P2.run [Ev.workerData c5buf]).upstreamTimeoutMs = some 30000 := by
  refine ⟨?_, ?_, ?_⟩ <;> decide

/-- C8 amended: the `app.js` WebSocket and TCP relay variants install a
30000 ms (`UPSTREAM_TIMEOUT`) idle timeout on the upstream socket, but the
`part_002` variant installs 15000 ms (`CONNECTION_TIMEOUT`); in every
variant the installed value is the only one ever used. -/
theorem c8_upstream_timeout_per_variant (evs : List Ev)
    (parse : Bytes → Except String AppWs.ParsedInfo) :
    ((AppTcp.run evs).upstreamTimeoutMs = none ∨
      (AppTcp.run evs).upstreamTimeoutMs = some AppTcp.UPSTREAM_TIMEOUT) ∧
    ((AppWs.run parse evs).upstreamTimeoutMs = none ∨
      (AppWs.run parse evs).upstreamTimeoutMs = some AppWs.UPSTREAM_TIMEOUT) ∧
    ((P2.run evs).upstreamTimeoutMs = none ∨
      (P2.run evs).upstreamTimeoutMs = some P2.CONNECTION_TIMEOUT) ∧
    AppTcp.UPSTREAM_TIMEOUT = 30000 ∧ AppWs.UPSTREAM_TIMEOUT = 30000 ∧
    P2.CONNECTION_TIMEOUT = 15000 :=
  ⟨(AppTcp.tcp_inv_run evs).tmo, (AppWs.ws_inv_run parse evs).tmo, (P2.p2_inv_run evs).tmo,
   rfl, rfl, rfl⟩

/-- C9: in both HTTP-proxy variants, a CONNECT request whose target lacks
a host component (`!targetHost`) or whose port part does not parse as a
number (`isNaN(targetPort)`) is answered with `400 Bad Request` and no
upstream dial is made. -/
theorem c9_connect_invalid_target_rejected (buf : Bytes) (i : Nat) (t : List Char)
    (hline : Http.findCRLF (utf8Decode buf) = some i)
    (hmethod : (Http.splitOnChar ' ' ((utf8Decode buf).take i)).getD 0 [] =
      "CONNECT".toList)
    (htarget : (Http.splitOnChar ' ' ((utf8Decode buf).take i)).get? 1 = some t)
    (hbad : (Http.splitOnChar ':' t).getD 0 [] = [] ∨
      ((Http.splitOnChar ':' t).get? 1).bind Http.jsParseInt = none) :
    Http.stepP1 buf = Http.HAction.respond400 ∧
    Http.stepApp buf = Http.HAction.respond400 := by
  constructor
  · simp only [Http.stepP1, hline, htarget]
    rw [if_pos hmethod]
    simp only [Http.connectBranch]
    rw [if_pos hbad]
  · simp only [Http.stepApp, hline, htarget]
    rw [if_pos hmethod]
    simp only [Http.connectBranch]
    rw [if_pos hbad]

/-- Witness for C9 with the host-less target `CONNECT :443`. -/
theorem c9_connect_invalid_target_rejected_witness :
    Http.stepP1 (asciiBytes "CONNECT :443 HTTP/1.1\r\n\r\n") =
      Http.HAction.respond400 ∧
    Http.stepApp (asciiBytes "CONNECT :443 HTTP/1.1\r\n\r\n") =
      Http.HAction.respond400 :=
  c9_connect_invalid_target_rejected (asciiBytes "CONNECT :443 HTTP/1.1\r\n\r\n")
    21 ":443".toList (by decide) (by decide) (by decide) (Or.inl (by decide))

/-- C10 counterexample: the forwarder records every sender before
forwarding, so when the fixed upstream target itself sends a datagram (as
it does for every reply, since the same socket is used), the forwarded
copy goes to an endpoint that is recorded in the routing map — a datagram
is sent to a recorded source endpoint. -/
theorem c10_forward_to_recorded_source_counterexample :
    (Udp.onMessage [] [1, 2, 3] ⟨"1.0.0.5", 443⟩ 0).2.destAddress = "1.0.0.5" ∧
    (Udp.onMessage [] [1, 2, 3] ⟨"1.0.0.5", 443⟩ 0).2.destPort = 443 ∧
    (⟨"1.0.0.5", 443⟩ : Udp.Endpoint) ∈
      Udp.recordedSources (Udp.onMessage [] [1, 2, 3] ⟨"1.0.0.5", 443⟩ 0).1 := by
  refine ⟨?_, ?_, ?_⟩ <;> decide

/-- C10 amended: every inbound datagram is forwarded with exactly the
received bytes to the fixed configured upstream `1.0.0.5:443`, and the
forwarded output is independent of the routing-map state (identical bytes
to the identical destination for any two map states).  Since the
destination is always the fixed upstream, a datagram reaches a recorded
source endpoint only when that source is the upstream itself (see the
counterexample). -/
theorem c10_udp_forward_fixed_and_map_independent (m1 m2 : Udp.ClientMap)
    (msg : Bytes) (r : Udp.Endpoint) (now1 now2 : Nat) :
    (Udp.onMessage m1 msg r now1).2 = (Udp.onMessage m2 msg r now2).2 ∧
    (Udp.onMessage m1 msg r now1).2.payload = msg ∧
    (Udp.onMessage m1 msg r now1).2.destAddress = Udp.TARGET_UDP_IP ∧
    (Udp.onMessage m1 msg r now1).2.destPort = Udp.TARGET_UDP_PORT :=
  ⟨rfl, by simp [Udp.onMessage], rfl, rfl⟩

end Nodpxoy
